import Mathlib

/-!
Verification of the MARIA network-address model and peer-address wire protocol.

The data model and operations below are a shallow embedding of the network
address core of the repository.  The repository ships the unit tests
(`src/test/netbase_tests.cpp`), the network RPC glue (`rpc/net.cpp`) and the
fixed-width blob header (`uint256.h`); the bodies of `CNetAddr`, `CSubNet`,
the wire codec and the ban primitive live in files that are not part of the
source snapshot, so those definitions are modelled from the design
specification (spec.md sections 3, 4.1-4.4) and validated against the
concrete vectors that the shipped unit tests pin down.
-/

namespace MariaNet

/-! ## Byte-level helpers -/

/-- Little-endian byte encoding of `n` on `w` bytes. -/
def leBytes : Nat → Nat → List Nat
  | 0, _ => []
  | w + 1, n => (n % 256) :: leBytes w (n / 256)

/-- Little-endian value of a byte list. -/
def leVal : List Nat → Nat
  | [] => 0
  | b :: bs => b + 256 * leVal bs

/-- Big-endian 2-byte encoding (network byte order of a port). -/
def beBytes2 (n : Nat) : List Nat := [n / 256 % 256, n % 256]

/-- Big-endian 2-byte value. -/
def beVal2 (l : List Nat) : Nat := (l.getD 0 0) * 256 + l.getD 1 0

/-- Big-endian value of a whole byte list (used by the base32 codec). -/
def beVal : List Nat → Nat := List.foldl (fun acc b => acc * 256 + b) 0

/-- Big-endian byte encoding of `n` on `w` bytes. -/
def beBytesN (w n : Nat) : List Nat := (leBytes w n).reverse

theorem leBytes_length (w n : Nat) : (leBytes w n).length = w := by
  induction w generalizing n with
  | zero => rfl
  | succ w ih => simp [leBytes, ih]

theorem leVal_leBytes (w n : Nat) : leVal (leBytes w n) = n % 2 ^ (8 * w) := by
  induction w generalizing n with
  | zero => simp [leBytes, leVal, Nat.mod_one]
  | succ w ih =>
    have h256 : (2 : Nat) ^ (8 * (w + 1)) = 256 * 2 ^ (8 * w) := by
      rw [Nat.mul_add, pow_add]; ring
    rw [leBytes, leVal, ih, h256, Nat.mod_mul]

theorem leVal_leBytes_of_lt {w n : Nat} (h : n < 2 ^ (8 * w)) :
    leVal (leBytes w n) = n := by
  rw [leVal_leBytes, Nat.mod_eq_of_lt h]

theorem leBytes_bytes_lt (w n : Nat) : ∀ b ∈ leBytes w n, b < 256 := by
  induction w generalizing n with
  | zero => simp [leBytes]
  | succ w ih =>
    intro b hb
    rcases List.mem_cons.mp hb with h | h
    · subst h; exact Nat.mod_lt _ (by norm_num)
    · exact ih _ _ h

/-- Take exactly `k` bytes from the front of a stream. -/
def readBytes (k : Nat) (s : List Nat) : Option (List Nat × List Nat) :=
  if k ≤ s.length then some (s.take k, s.drop k) else none

theorem readBytes_append {xs : List Nat} (rest : List Nat) (h : xs.length = k) :
    readBytes k (xs ++ rest) = some (xs, rest) := by
  subst h
  simp [readBytes, List.take_append, List.drop_append]

theorem readBytes_one (b : Nat) (rest : List Nat) :
    readBytes 1 (b :: rest) = some ([b], rest) := by
  simp [readBytes]

/-! ## Network address data model

`CNetAddr` keeps the unified 16-byte representation described in spec.md
section 3: IPv4 is stored as the IPv4-mapped-IPv6 pattern, the overlay (Tor)
network uses the fixed OnionCat prefix, and internal pseudo-addresses use
their own reserved prefix. -/

/-- Modelled from the spec: canonical in-memory endpoint representation
(`CNetAddr` of netaddress.h, absent from the source snapshot): a fixed
16-byte payload whose network classification is derived from the bytes. -/
structure CNetAddr where
  ip : List Nat
deriving DecidableEq, Repr

/-- Byte `i` of the 16-byte representation. -/
def byteAt (a : CNetAddr) (i : Nat) : Nat := a.ip.getD i 0

/-- Well-formedness of the 16-byte payload. -/
def wfAddr (a : CNetAddr) : Prop := a.ip.length = 16 ∧ ∀ b ∈ a.ip, b < 256

instance (a : CNetAddr) : Decidable (wfAddr a) := by unfold wfAddr; infer_instance

/-- Transport-network tag (closed set, spec.md section 3). -/
inductive Network
  | unroutable | ipv4 | ipv6 | onion | i2p | cjdns | internal
deriving DecidableEq, Repr

/-- Numeric value of a network tag, as used inside group keys. -/
def Network.toByte : Network → Nat
  | .unroutable => 0
  | .ipv4 => 1
  | .ipv6 => 2
  | .onion => 3
  | .i2p => 4
  | .cjdns => 5
  | .internal => 6

/-- Structural address family derived from the byte layout. -/
inductive Fam
  | ipv4 | ipv6 | onion | internal
deriving DecidableEq, Repr

/-- The 12-byte IPv4-mapped-IPv6 prefix ::FFFF:0:0/96. -/
def pchIPv4 : List Nat := [0, 0, 0, 0, 0, 0, 0, 0, 0, 0, 0xff, 0xff]

/-- The 6-byte OnionCat prefix FD87:D87E:EB43::/48 of the overlay network. -/
def pchOnionCat : List Nat := [0xfd, 0x87, 0xd8, 0x7e, 0xeb, 0x43]

/-- The 6-byte internal pseudo-network prefix FD6B:88C0:8724::/48. -/
def pchInternal : List Nat := [0xfd, 0x6b, 0x88, 0xc0, 0x87, 0x24]

/-- Modelled from the spec: network classification is always derived from the
byte layout, never from claimed metadata (spec.md section 3 invariant). -/
def famOf (a : CNetAddr) : Fam :=
  if byteAt a 0 = 0 ∧ byteAt a 1 = 0 ∧ byteAt a 2 = 0 ∧ byteAt a 3 = 0 ∧
     byteAt a 4 = 0 ∧ byteAt a 5 = 0 ∧ byteAt a 6 = 0 ∧ byteAt a 7 = 0 ∧
     byteAt a 8 = 0 ∧ byteAt a 9 = 0 ∧ byteAt a 10 = 0xff ∧ byteAt a 11 = 0xff
  then .ipv4
  else if byteAt a 0 = 0xfd ∧ byteAt a 1 = 0x87 ∧ byteAt a 2 = 0xd8 ∧
          byteAt a 3 = 0x7e ∧ byteAt a 4 = 0xeb ∧ byteAt a 5 = 0x43
  then .onion
  else if byteAt a 0 = 0xfd ∧ byteAt a 1 = 0x6b ∧ byteAt a 2 = 0x88 ∧
          byteAt a 3 = 0xc0 ∧ byteAt a 4 = 0x87 ∧ byteAt a 5 = 0x24
  then .internal
  else .ipv6

/-! ## Classification predicates (spec.md section 4.1): pure, total functions
of the bytes, each a fixed bit-pattern-and-mask test. -/

def IsIPv4 (a : CNetAddr) : Bool := famOf a = .ipv4

def IsIPv6 (a : CNetAddr) : Bool := famOf a = .ipv6

def IsTor (a : CNetAddr) : Bool := famOf a = .onion

def IsInternal (a : CNetAddr) : Bool := famOf a = .internal

/-- RFC1918 private ranges 10/8, 192.168/16, 172.16/12. -/
def IsRFC1918 (a : CNetAddr) : Bool :=
  IsIPv4 a &&
    (byteAt a 12 = 10 ||
     (byteAt a 12 = 192 && byteAt a 13 = 168) ||
     (byteAt a 12 = 172 && 16 ≤ byteAt a 13 && byteAt a 13 ≤ 31))

/-- RFC2544 benchmark range 198.18.0.0/15. -/
def IsRFC2544 (a : CNetAddr) : Bool :=
  IsIPv4 a && byteAt a 12 = 198 && (byteAt a 13 = 18 || byteAt a 13 = 19)

/-- RFC3927 IPv4 link-local 169.254/16. -/
def IsRFC3927 (a : CNetAddr) : Bool :=
  IsIPv4 a && byteAt a 12 = 169 && byteAt a 13 = 254

/-- RFC6598 carrier-grade NAT 100.64.0.0/10. -/
def IsRFC6598 (a : CNetAddr) : Bool :=
  IsIPv4 a && byteAt a 12 = 100 && 64 ≤ byteAt a 13 && byteAt a 13 ≤ 127

/-- RFC5737 documentation ranges 192.0.2/24, 198.51.100/24, 203.0.113/24. -/
def IsRFC5737 (a : CNetAddr) : Bool :=
  IsIPv4 a &&
    ((byteAt a 12 = 192 && byteAt a 13 = 0 && byteAt a 14 = 2) ||
     (byteAt a 12 = 198 && byteAt a 13 = 51 && byteAt a 14 = 100) ||
     (byteAt a 12 = 203 && byteAt a 13 = 0 && byteAt a 14 = 113))

/-- RFC3849 IPv6 documentation range 2001:0DB8::/32. -/
def IsRFC3849 (a : CNetAddr) : Bool :=
  byteAt a 0 = 0x20 && byteAt a 1 = 0x01 && byteAt a 2 = 0x0D && byteAt a 3 = 0xB8

/-- RFC3964 6-to-4 transition range 2002::/16. -/
def IsRFC3964 (a : CNetAddr) : Bool :=
  byteAt a 0 = 0x20 && byteAt a 1 = 0x02

/-- RFC6052 NAT64 well-known prefix 64:FF9B::/96. -/
def IsRFC6052 (a : CNetAddr) : Bool :=
  byteAt a 0 = 0 && byteAt a 1 = 0x64 && byteAt a 2 = 0xFF && byteAt a 3 = 0x9B &&
  byteAt a 4 = 0 && byteAt a 5 = 0 && byteAt a 6 = 0 && byteAt a 7 = 0 &&
  byteAt a 8 = 0 && byteAt a 9 = 0 && byteAt a 10 = 0 && byteAt a 11 = 0

/-- RFC4380 Teredo tunnelling range 2001::/32. -/
def IsRFC4380 (a : CNetAddr) : Bool :=
  byteAt a 0 = 0x20 && byteAt a 1 = 0x01 && byteAt a 2 = 0 && byteAt a 3 = 0

/-- RFC4862 IPv6 link-local FE80::/64. -/
def IsRFC4862 (a : CNetAddr) : Bool :=
  byteAt a 0 = 0xFE && byteAt a 1 = 0x80 && byteAt a 2 = 0 && byteAt a 3 = 0 &&
  byteAt a 4 = 0 && byteAt a 5 = 0 && byteAt a 6 = 0 && byteAt a 7 = 0

/-- RFC4193 unique-local FC00::/7. -/
def IsRFC4193 (a : CNetAddr) : Bool :=
  byteAt a 0 &&& 0xFE = 0xFC

/-- RFC6145 IPv4-translated prefix ::FFFF:0:0/96 (addresses ::FFFF:0:a.b.c.d). -/
def IsRFC6145 (a : CNetAddr) : Bool :=
  byteAt a 0 = 0 && byteAt a 1 = 0 && byteAt a 2 = 0 && byteAt a 3 = 0 &&
  byteAt a 4 = 0 && byteAt a 5 = 0 && byteAt a 6 = 0 && byteAt a 7 = 0 &&
  byteAt a 8 = 0xFF && byteAt a 9 = 0xFF && byteAt a 10 = 0 && byteAt a 11 = 0

/-- RFC4843 ORCHID range 2001:10::/28. -/
def IsRFC4843 (a : CNetAddr) : Bool :=
  byteAt a 0 = 0x20 && byteAt a 1 = 0x01 && byteAt a 2 = 0 &&
  byteAt a 3 &&& 0xF0 = 0x10

/-- RFC7343 ORCHIDv2 range 2001:20::/28. -/
def IsRFC7343 (a : CNetAddr) : Bool :=
  byteAt a 0 = 0x20 && byteAt a 1 = 0x01 && byteAt a 2 = 0 &&
  byteAt a 3 &&& 0xF0 = 0x20

/-- Hurricane Electric tunnel-broker range 2001:470::/36 (grouped more
finely by the group classifier). -/
def IsHeNet (a : CNetAddr) : Bool :=
  byteAt a 0 = 0x20 && byteAt a 1 = 0x01 && byteAt a 2 = 0x04 && byteAt a 3 = 0x70

/-- Loopback: IPv4 127/8 or 0/8, or the IPv6 loopback ::1. -/
def IsLocal (a : CNetAddr) : Bool :=
  (IsIPv4 a && (byteAt a 12 = 127 || byteAt a 12 = 0)) ||
  a.ip = [0, 0, 0, 0, 0, 0, 0, 0, 0, 0, 0, 0, 0, 0, 0, 1]

/-- Modelled from the spec: `isValid` rejects unroutable/malformed patterns
such as all-zero addresses or documented-invalid ranges (spec.md 4.1). -/
def IsValid (a : CNetAddr) : Bool :=
  !(a.ip.all (· = 0)) &&
  -- header-garbage shifted IPv4-mapped pattern
  !(byteAt a 0 = 0 && byteAt a 1 = 0 && byteAt a 2 = 0 && byteAt a 3 = 0 &&
    byteAt a 4 = 0 && byteAt a 5 = 0 && byteAt a 6 = 0 &&
    byteAt a 7 = 0xFF && byteAt a 8 = 0xFF) &&
  !(IsRFC3849 a) &&
  !(IsInternal a) &&
  !(IsIPv4 a && byteAt a 12 = 255 && byteAt a 13 = 255 &&
    byteAt a 14 = 255 && byteAt a 15 = 255) &&
  !(IsIPv4 a && byteAt a 12 = 0 && byteAt a 13 = 0 &&
    byteAt a 14 = 0 && byteAt a 15 = 0)

/-- Modelled from the spec: `isRoutable` is false for loopback, link-local,
documented non-routable ranges and invalid addresses (spec.md 4.1). -/
def IsRoutable (a : CNetAddr) : Bool :=
  IsValid a &&
  !(IsRFC1918 a || IsRFC2544 a || IsRFC3927 a || IsRFC4862 a || IsRFC6598 a ||
    IsRFC5737 a || (IsRFC4193 a && !IsTor a && !IsInternal a) || IsRFC4843 a ||
    IsRFC7343 a || IsLocal a || IsInternal a)

/-- Observable network of an address: unroutable unless routable, internal for
internal pseudo-addresses. -/
def GetNetwork (a : CNetAddr) : Network :=
  if IsInternal a then .internal
  else if !IsRoutable a then .unroutable
  else match famOf a with
    | .ipv4 => .ipv4
    | .ipv6 => .ipv6
    | .onion => .onion
    | .internal => .internal

/-- Modelled from the spec: the diversity-bucket key of `getGroup` with no
AS-map supplied (spec.md 4.1): a single constant key for non-routable
addresses, the /16 of the (possibly embedded) IPv4, a fixed-width IPv6
prefix, a short prefix for the overlay network and the hash payload for the
internal network. -/
def GetGroup (a : CNetAddr) : List Nat :=
  if IsInternal a then Network.internal.toByte :: a.ip.drop 6
  else if !IsRoutable a then [0]
  else if IsIPv4 a || IsRFC6145 a || IsRFC6052 a then
    [Network.ipv4.toByte, byteAt a 12, byteAt a 13]
  else if IsRFC3964 a then
    [Network.ipv4.toByte, byteAt a 2, byteAt a 3]
  else if IsRFC4380 a then
    [Network.ipv4.toByte, byteAt a 12 ^^^ 0xFF, byteAt a 13 ^^^ 0xFF]
  else if IsTor a then
    [Network.onion.toByte, byteAt a 6 ||| 0x0F]
  else if IsHeNet a then
    [Network.ipv6.toByte, byteAt a 0, byteAt a 1, byteAt a 2, byteAt a 3,
     byteAt a 4 ||| 0x0F]
  else
    [Network.ipv6.toByte, byteAt a 0, byteAt a 1, byteAt a 2, byteAt a 3]

/-! ## SHA-256

Internal pseudo-addresses are derived by hashing a label with SHA-256
(spec.md 4.1, `fromInternalLabel`).  This is a full executable SHA-256 over
byte lists; the "baz.net" vector recorded in the unit tests pins it down. -/

def w32 : Nat := 4294967296

def add32 (a b : Nat) : Nat := (a + b) % w32

def rotr (r x : Nat) : Nat := ((x >>> r) ||| (x <<< (32 - r))) % w32

def shaCh (e f g : Nat) : Nat := (e &&& f) ^^^ ((e ^^^ 0xFFFFFFFF) &&& g)

def shaMaj (a b c : Nat) : Nat := (a &&& b) ^^^ (a &&& c) ^^^ (b &&& c)

def bigSigma0 (x : Nat) : Nat := rotr 2 x ^^^ rotr 13 x ^^^ rotr 22 x

def bigSigma1 (x : Nat) : Nat := rotr 6 x ^^^ rotr 11 x ^^^ rotr 25 x

def smallSigma0 (x : Nat) : Nat := rotr 7 x ^^^ rotr 18 x ^^^ (x >>> 3)

def smallSigma1 (x : Nat) : Nat := rotr 17 x ^^^ rotr 19 x ^^^ (x >>> 10)

/-- Byte codes of a host string. -/
def strBytes (s : String) : List Nat := s.data.map Char.toNat

/-- Decimal value of a hex digit character, if any (lower or upper case). -/
def hexVal (c : Nat) : Option Nat :=
  if 48 ≤ c ∧ c ≤ 57 then some (c - 48)
  else if 97 ≤ c ∧ c ≤ 102 then some (c - 87)
  else if 65 ≤ c ∧ c ≤ 70 then some (c - 55)
  else none

/-- Byte list of hex character codes. -/
def hexToBytes : List Nat → List Nat
  | a :: b :: rest => ((hexVal a).getD 0 * 16 + (hexVal b).getD 0) :: hexToBytes rest
  | _ => []

/-- Byte list of a hex string. -/
def hexBytes (s : String) : List Nat := hexToBytes (strBytes s)

/-- Big-endian 32-bit words of a byte list. -/
def words32 (bs : List Nat) : List Nat :=
  (List.range (bs.length / 4)).map (fun i => beVal ((bs.drop (4 * i)).take 4))

/-- The fractional cube-root round constants of the hash, as one hex blob. -/
def sha256KHex : String :=
  "428a2f9871374491b5c0fbcfe9b5dba5" ++
  "3956c25b59f111f1923f82a4ab1c5ed5" ++
  "d807aa9812835b01243185be550c7dc3" ++
  "72be5d7480deb1fe9bdc06a7c19bf174" ++
  "e49b69c1efbe47860fc19dc6240ca1cc" ++
  "2de92c6f4a7484aa5cb0a9dc76f988da" ++
  "983e5152a831c66db00327c8bf597fc7" ++
  "c6e00bf3d5a7914706ca635114292967" ++
  "27b70a852e1b21384d2c6dfc53380d13" ++
  "650a7354766a0abb81c2c92e92722c85" ++
  "a2bfe8a1a81a664bc24b8b70c76c51a3" ++
  "d192e819d6990624f40e3585106aa070" ++
  "19a4c1161e376c082748774c34b0bcb5" ++
  "391c0cb34ed8aa4a5b9cca4f682e6ff3" ++
  "748f82ee78a5636f84c878148cc70208" ++
  "90befffaa4506cebbef9a3f7c67178f2"

def sha256K : List Nat := words32 (hexBytes sha256KHex)

def sha256InitH : List Nat :=
  words32 (hexBytes ("6a09e667bb67ae853c6ef372a54ff53a" ++
    "510e527f9b05688c1f83d9ab5be0cd19"))

/-- Extend the 16 block words to the 64-entry message schedule. -/
def sha256Schedule (block : List Nat) : List Nat :=
  (List.range 48).foldl
    (fun ws _ =>
      let n := ws.length
      ws ++ [add32 (add32 (smallSigma1 (ws.getD (n - 2) 0)) (ws.getD (n - 7) 0))
                   (add32 (smallSigma0 (ws.getD (n - 15) 0)) (ws.getD (n - 16) 0))])
    block

/-- One SHA-256 round on the 8-word state. -/
def sha256Round (st : List Nat) (kw : Nat × Nat) : List Nat :=
  match st with
  | [a, b, c, d, e, f, g, h] =>
    let t1 := add32 h (add32 (bigSigma1 e) (add32 (shaCh e f g) (add32 kw.1 kw.2)))
    let t2 := add32 (bigSigma0 a) (shaMaj a b c)
    [add32 t1 t2, a, b, c, add32 d t1, e, f, g]
  | other => other

def sha256Compress (h block : List Nat) : List Nat :=
  let st := ((sha256K.zip (sha256Schedule block)).foldl sha256Round h)
  (h.zip st).map (fun p => add32 p.1 p.2)

/-- SHA-256 padding: 0x80, zeros to 56 mod 64, 8-byte big-endian bit length. -/
def sha256Pad (msg : List Nat) : List Nat :=
  let z := (119 - msg.length % 64) % 64
  msg ++ [0x80] ++ List.replicate z 0 ++ beBytesN 8 (8 * msg.length)

/-- Split a padded message into 16-word big-endian blocks. -/
def sha256Blocks (l : List Nat) : List (List Nat) :=
  (List.range (l.length / 64)).map
    (fun i => (List.range 16).map (fun j => beVal (((l.drop (64 * i)).drop (4 * j)).take 4)))

/-- SHA-256 of a byte list, as a 32-byte list. -/
def sha256 (msg : List Nat) : List Nat :=
  ((sha256Blocks (sha256Pad msg)).foldl sha256Compress sha256InitH).foldr
    (fun wv acc => beBytesN 4 wv ++ acc) []

/-- Modelled from the spec: `fromInternalLabel` derives a pseudo-address in
the internal network by hashing the label with SHA-256 and keeping the first
10 hash bytes after the 6-byte internal prefix (spec.md 4.1). -/
def SetInternal (name : String) : CNetAddr :=
  ⟨pchInternal ++ (sha256 (strBytes name)).take 10⟩

/-! ## Textual address parsing (spec.md 4.1 `parse`)

Modelled from the spec: `parse` accepts dotted-quad IPv4, colon-hex IPv6
(including the IPv4-mapped form and `::` compression) and overlay-network
service identifiers recognised by their encoded suffix and length, and fails
on malformed text or embedded terminator characters, covering the whole
supplied string. -/

/-- Split a byte list on a separator byte. -/
def splitByte (sep : Nat) (l : List Nat) : List (List Nat) :=
  l.foldr (fun b acc => if b = sep then [] :: acc else (b :: acc.headD []) :: acc.tail)
    [[]]

def isDigitB (c : Nat) : Bool := 48 ≤ c && c ≤ 57

/-- One dotted-quad component: 1-3 decimal digits, value at most 255. -/
def parseByteDec (p : List Nat) : Option Nat :=
  if p ≠ [] ∧ p.length ≤ 3 ∧ p.all isDigitB then
    let v := p.foldl (fun a c => a * 10 + (c - 48)) 0
    if v ≤ 255 then some v else none
  else none

/-- Dotted-quad IPv4 text to its 4 bytes. -/
def parseIPv4 (l : List Nat) : Option (List Nat) :=
  match (splitByte 46 l).mapM parseByteDec with
  | some [a, b, c, d] => some [a, b, c, d]
  | _ => none

/-- One colon-hex group: 1-4 hex digits. -/
def parseHexGroup (p : List Nat) : Option Nat :=
  if p ≠ [] ∧ p.length ≤ 4 ∧ p.all (fun c => (hexVal c).isSome) then
    some (p.foldl (fun a c => a * 16 + (hexVal c).getD 0) 0)
  else none

/-- Index of the first adjacent `::` in a byte list. -/
def findDoubleColon : List Nat → Option Nat
  | [] => none
  | [_] => none
  | a :: b :: rest =>
    if a = 58 ∧ b = 58 then some 0
    else (findDoubleColon (b :: rest)).map (· + 1)

/-- Bytes of a group value. -/
def groupBytes (v : Nat) : List Nat := [v / 256 % 256, v % 256]

/-- Parse colon-separated groups where only the final component may be a
dotted-quad IPv4 tail; yields the concatenated bytes. -/
def parseTail : List (List Nat) → Option (List Nat)
  | [] => some []
  | [p] =>
    if p.contains 46 then parseIPv4 p
    else (parseHexGroup p).map groupBytes
  | p :: q :: rest => do
    let v ← parseHexGroup p
    let r ← parseTail (q :: rest)
    pure (groupBytes v ++ r)

/-- Colon-hex IPv6 text to its 16 bytes. -/
def parseIPv6 (l : List Nat) : Option (List Nat) :=
  match findDoubleColon l with
  | none =>
    let parts := splitByte 58 l
    if parts.all (· ≠ []) then
      match parseTail parts with
      | some bs => if bs.length = 16 then some bs else none
      | none => none
    else none
  | some i =>
    let before := l.take i
    let after := l.drop (i + 2)
    let bparts := if before = [] then [] else splitByte 58 before
    let aparts := if after = [] then [] else splitByte 58 after
    if bparts.all (· ≠ []) && aparts.all (· ≠ []) && findDoubleColon after = none then
      match (bparts.mapM parseHexGroup).map (fun vs => (vs.map groupBytes).flatten),
            parseTail aparts with
      | some bb, some ab =>
        if bb.length + ab.length ≤ 14 then
          some (bb ++ List.replicate (16 - bb.length - ab.length) 0 ++ ab)
        else none
      | _, _ => none
    else none

/-- Value of a base32 character (lower-case RFC4648 alphabet). -/
def b32val (c : Nat) : Option Nat :=
  if 97 ≤ c ∧ c ≤ 122 then some (c - 97)
  else if 50 ≤ c ∧ c ≤ 55 then some (c - 50 + 26)
  else none

/-- Base32 character of a 5-bit value. -/
def b32char (v : Nat) : Nat := if v < 26 then v + 97 else v - 26 + 50

/-- Overlay-network service identifier: 16 base32 characters followed by the
".onion" suffix, decoding to the 10-byte overlay payload. -/
def parseOnion (l : List Nat) : Option (List Nat) :=
  if l.length = 22 ∧ l.drop 16 = [46, 111, 110, 105, 111, 110] then
    ((l.take 16).mapM b32val).map
      (fun vs => beBytesN 10 (vs.foldl (fun a v => a * 32 + v) 0))
  else none

/-- Base32 text (as character codes) of a 10-byte overlay payload. -/
def encodeBase32Of10 (bs : List Nat) : List Nat :=
  (List.range 16).map (fun i => b32char (beVal bs / 32 ^ (15 - i) % 32))

/-- Numeric host text (onion service identifier, dotted quad or colon hex)
to an address value. -/
def parseHost (l : List Nat) : Option CNetAddr :=
  match parseOnion l with
  | some b => some ⟨pchOnionCat ++ b⟩
  | none =>
    match parseIPv4 l with
    | some p => some ⟨pchIPv4 ++ p⟩
    | none => (parseIPv6 l).map CNetAddr.mk

/-- Modelled from the spec: `LookupHost` (netbase, absent from the snapshot)
parses a numeric host string into a `CNetAddr`, rejecting any input with an
embedded terminator character: the parse covers the entire supplied string,
never a truncated C-style view of it (spec.md 4.1). -/
def LookupHost (s : String) : Option CNetAddr :=
  let l := strBytes s
  if l.contains 0 then none else parseHost l

/-- The test-suite helper `ResolveIP`: a failed lookup leaves the
default-constructed (all-zero, invalid) address. -/
def ResolveIP (s : String) : CNetAddr := (LookupHost s).getD ⟨List.replicate 16 0⟩

/-! ## Textual rendering (spec.md 4.1 `toStringIP`) -/

/-- Decimal character codes of a value below 1000, no leading zeros. -/
def decChars (n : Nat) : List Nat :=
  let t := [n / 100 % 10, n / 10 % 10, n % 10].dropWhile (· = 0)
  (if t = [] then [0] else t).map (· + 48)

/-- Lower-case hex character codes of a value below 65536, no leading zeros. -/
def hexChars (n : Nat) : List Nat :=
  let t := [n / 4096 % 16, n / 256 % 16, n / 16 % 16, n % 16].dropWhile (· = 0)
  (if t = [] then [0] else t).map (fun d => if d < 10 then d + 48 else d + 87)

/-- Join byte-list components with a separator byte. -/
def joinSep (sep : Nat) : List (List Nat) → List Nat
  | [] => []
  | [p] => p
  | p :: q :: rest => p ++ sep :: joinSep sep (q :: rest)

/-- Dotted-quad text of 4 IPv4 bytes. -/
def renderIPv4 (bs : List Nat) : List Nat := joinSep 46 (bs.map decChars)

/-- The eight 16-bit groups of an IPv6 address. -/
def v6groups (ip : List Nat) : List Nat :=
  (List.range 8).map (fun i => ip.getD (2 * i) 0 * 256 + ip.getD (2 * i + 1) 0)

/-- Leftmost longest run (of length at least 2) of zero groups. -/
def bestZeroRun (gs : List Nat) : Option (Nat × Nat) :=
  let best := (List.range gs.length).foldl
    (fun acc i =>
      let len := ((gs.drop i).takeWhile (· = 0)).length
      if len > acc.2 then (i, len) else acc)
    (0, 0)
  if 2 ≤ best.2 then some best else none

/-- Canonical colon-hex text of an IPv6 address with `::` compression. -/
def renderIPv6 (ip : List Nat) : List Nat :=
  let gs := v6groups ip
  match bestZeroRun gs with
  | none => joinSep 58 (gs.map hexChars)
  | some (i, len) =>
    joinSep 58 ((gs.take i).map hexChars) ++ [58, 58] ++
      joinSep 58 ((gs.drop (i + len)).map hexChars)

/-- Character codes to a string. -/
def natsToString (l : List Nat) : String := String.mk (l.map Char.ofNat)

/-- Modelled from the spec: canonical textual rendering, including
re-encoding overlay-network addresses back to their service-identifier text
form, not raw hex (spec.md 4.1). -/
def ToStringIP (a : CNetAddr) : String :=
  match famOf a with
  | .ipv4 => natsToString (renderIPv4 (a.ip.drop 12))
  | .onion => natsToString (encodeBase32Of10 (a.ip.drop 6)) ++ ".onion"
  | .internal => natsToString (encodeBase32Of10 (a.ip.drop 6)) ++ ".internal"
  | .ipv6 => natsToString (renderIPv6 a.ip)

/-! ## Subnets (spec.md 4.2)

A `CSubNet` is a base address plus a netmask over the unified 16-byte
representation; it is valid only for the subnettable networks (IPv4, IPv6)
and, when built from an explicit netmask, only for contiguous masks. -/

/-- Modelled from the spec: `CSubNet` (netaddress.h, absent from the
snapshot): base network address, 16-byte netmask, validity flag. -/
structure CSubNet where
  network : CNetAddr
  netmask : List Nat
  valid : Bool
deriving DecidableEq, Repr

/-- Width in bits of a subnettable network family. -/
def subnetWidth : Fam → Nat
  | .ipv4 => 32
  | .ipv6 => 128
  | .onion => 0
  | .internal => 0

/-- Only IPv4 and IPv6 can be subnetted (spec.md 4.2 invariant). -/
def subnettable (f : Fam) : Bool := f = .ipv4 || f = .ipv6

/-- Netmask byte with the given number of leading one bits (capped at 8). -/
def maskByte (bits : Nat) : Nat := 256 - 2 ^ (8 - min bits 8)

/-- The `k`-byte netmask of a prefix of `n` bits. -/
def maskBytes (k n : Nat) : List Nat :=
  (List.range k).map (fun i => maskByte (n - 8 * i))

/-- The full 16-byte netmask of a prefix (IPv4 masks keep the mapped prefix
bytes fixed). -/
def makeMask (f : Fam) (n : Nat) : List Nat :=
  if f = .ipv4 then List.replicate 12 255 ++ maskBytes 4 n else maskBytes 16 n

/-- Bytewise AND of an address payload with a netmask. -/
def maskApply (ip mask : List Nat) : List Nat := List.zipWith (· &&& ·) ip mask

/-- Modelled from the spec: subnet from a base address plus a prefix length;
fails (invalid) for non-subnettable networks and out-of-range lengths
(spec.md 4.2). -/
def CSubNet.ofPrefix (a : CNetAddr) (n : Nat) : CSubNet :=
  if subnettable (famOf a) ∧ n ≤ subnetWidth (famOf a) then
    let mask := makeMask (famOf a) n
    ⟨⟨maskApply a.ip mask⟩, mask, true⟩
  else ⟨a, List.replicate 16 0, false⟩

/-- Bytes that may appear at the boundary of a contiguous netmask. -/
def contigByte (b : Nat) : Bool := b ∈ [0, 128, 192, 224, 240, 248, 252, 254]

/-- Contiguous ones followed by contiguous zeros ("no 1-bits after 0-bits"). -/
def contiguousBytes : List Nat → Bool
  | [] => true
  | b :: rest =>
    if b = 255 then contiguousBytes rest else contigByte b && rest.all (· = 0)

/-- Modelled from the spec: subnet from a base address plus an explicit
netmask; fails (invalid) on mismatched address/netmask families, on
non-contiguous masks and on non-subnettable networks (spec.md 4.2). -/
def CSubNet.ofMask (a m : CNetAddr) : CSubNet :=
  let f := famOf a
  if subnettable f ∧ famOf m = f ∧
     contiguousBytes (if f = .ipv4 then m.ip.drop 12 else m.ip) then
    let mask := if f = .ipv4 then List.replicate 12 255 ++ m.ip.drop 12 else m.ip
    ⟨⟨maskApply a.ip mask⟩, mask, true⟩
  else ⟨a, List.replicate 16 0, false⟩

/-- Subnet holding the single given address (/32 or /128). -/
def CSubNet.single (a : CNetAddr) : CSubNet :=
  CSubNet.ofPrefix a (subnetWidth (famOf a))

/-- Modelled from the spec: containment test; false for any subnet not
marked valid, for invalid addresses, and across network families, otherwise
bitmask comparison of the address against the base under the netmask
(spec.md 4.2). -/
def CSubNet.Match (s : CSubNet) (a : CNetAddr) : Bool :=
  s.valid && IsValid a && famOf a = famOf s.network &&
  (List.range 16).all (fun i =>
    byteAt a i &&& s.netmask.getD i 0 = byteAt s.network i &&& s.netmask.getD i 0)

/-- Modelled from the spec: `LookupSubNet` splits on the slash; the right
side is either a decimal prefix length or a netmask of the same family,
and inputs with embedded terminators are rejected (spec.md 4.2). -/
def LookupSubNet (s : String) : Option CSubNet :=
  let l := strBytes s
  if l.contains 0 then none
  else
    match splitByte 47 l with
    | [hostPart] => (parseHost hostPart).map CSubNet.single
    | [hostPart, maskPart] =>
      match parseHost hostPart with
      | none => none
      | some base =>
        if maskPart ≠ [] ∧ maskPart.all isDigitB then
          some (CSubNet.ofPrefix base
            (maskPart.foldl (fun a c => a * 10 + (c - 48)) 0))
        else
          match parseHost maskPart with
          | some m => some (CSubNet.ofMask base m)
          | none => none
    | _ => none

/-- Default-constructed (invalid) subnet. -/
def subnetNone : CSubNet := ⟨⟨List.replicate 16 0⟩, List.replicate 16 0, false⟩

/-- The test-suite helper `ResolveSubNet`: a failed lookup leaves the
default-constructed invalid subnet. -/
def ResolveSubNet (s : String) : CSubNet := (LookupSubNet s).getD subnetNone

/-- Boolean result of `LookupSubNet` as the C++ entry point reports it:
parse succeeded and the resulting subnet is valid. -/
def LookupSubNetOK (s : String) : Bool :=
  match LookupSubNet s with
  | some sn => sn.valid
  | none => false

/-- Number of one bits in a byte. -/
def popcountByte (b : Nat) : Nat := ((List.range 8).filter (fun i => b.testBit i)).length

/-- Prefix length encoded by the netmask (over the family width). -/
def CSubNet.prefixLen (s : CSubNet) : Nat :=
  ((if famOf s.network = .ipv4 then s.netmask.drop 12 else s.netmask).map
    popcountByte).sum

/-- Modelled from the spec: `toString` renders `address/prefixLength` in the
canonical minimal-prefix form, with the base address masked (spec.md 4.2). -/
def CSubNet.render (s : CSubNet) : String :=
  ToStringIP s.network ++ "/" ++ natsToString (decChars s.prefixLen)

/-! ## Wire codec (spec.md 4.3)

Two wire encodings of a timestamped-address sequence: the legacy fixed-width
v1 format and the self-describing v2 format, both modelled from the spec and
pinned down by the hex streams recorded in the unit tests. -/

/-- Maximum object count accepted by a deserializer (`MAX_SIZE`). -/
def MAX_SIZE : Nat := 0x02000000

/-- Variable-length integer (Bitcoin compact size) encoding. -/
def compactSize (n : Nat) : List Nat :=
  if n < 253 then [n]
  else if n ≤ 0xFFFF then 253 :: leBytes 2 n
  else if n ≤ 0xFFFFFFFF then 254 :: leBytes 4 n
  else 255 :: leBytes 8 n

/-- Compact-size decoding, enforcing canonical encodings and, when
`rangeCheck` is set, the `MAX_SIZE` cap on deserialized counts. -/
def readCompactSize (rangeCheck : Bool) (s : List Nat) : Option (Nat × List Nat) :=
  match s with
  | [] => none
  | b :: rest =>
    let raw : Option (Nat × List Nat) :=
      if b < 253 then some (b, rest)
      else if b = 253 then
        match readBytes 2 rest with
        | some (bs, r) => if 253 ≤ leVal bs then some (leVal bs, r) else none
        | none => none
      else if b = 254 then
        match readBytes 4 rest with
        | some (bs, r) => if 0x10000 ≤ leVal bs then some (leVal bs, r) else none
        | none => none
      else
        match readBytes 8 rest with
        | some (bs, r) => if 0x100000000 ≤ leVal bs then some (leVal bs, r) else none
        | none => none
    match raw with
    | some (v, r) => if rangeCheck ∧ MAX_SIZE < v then none else some (v, r)
    | none => none

/-- Modelled from the spec: `CAddress`, a network address bound to a port,
service capability flags and a last-seen timestamp (spec.md section 3,
`TimestampedAddress`). -/
structure CAddress where
  nTime : Nat
  nServices : Nat
  addr : CNetAddr
  port : Nat
deriving DecidableEq, Repr

/-- Modelled from the spec: in the legacy format any address that is not
IPv4 or IPv6 has no representation and degrades to the fixed all-zero
placeholder (spec.md 4.3, 9). -/
def serV1Addr (a : CNetAddr) : List Nat :=
  if subnettable (famOf a) then a.ip else List.replicate 16 0

/-- Legacy v1 entry: 4-byte LE time, 8-byte LE services, fixed 16-byte
address, 2-byte BE port. -/
def serV1Entry (x : CAddress) : List Nat :=
  leBytes 4 x.nTime ++ leBytes 8 x.nServices ++ serV1Addr x.addr ++ beBytes2 x.port

/-- Legacy v1 serialization of a sequence, prefixed by a compact-size count. -/
def SerializeV1 (l : List CAddress) : List Nat :=
  compactSize l.length ++ (l.map serV1Entry).flatten

def readV1Entry (s : List Nat) : Option (CAddress × List Nat) := do
  let (t, s1) ← readBytes 4 s
  let (sv, s2) ← readBytes 8 s1
  let (ipb, s3) ← readBytes 16 s2
  let (p, s4) ← readBytes 2 s3
  pure (⟨leVal t, leVal sv, ⟨ipb⟩, beVal2 p⟩, s4)

/-- Read `k` consecutive entries. -/
def readList (readEntry : List Nat → Option (CAddress × List Nat)) :
    Nat → List Nat → Option (List CAddress × List Nat)
  | 0, s => some ([], s)
  | k + 1, s => do
    let (x, s1) ← readEntry s
    let (xs, s2) ← readList readEntry k s1
    pure (x :: xs, s2)

/-- Legacy v1 deserialization of a full stream. -/
def UnserializeV1 (s : List Nat) : Option (List CAddress) := do
  let (n, s1) ← readCompactSize true s
  let (l, s2) ← readList readV1Entry n s1
  if s2 = [] then pure l else none

/-- Self-describing network id of a family (IPv6 id pinned to 2 by the test
stream; internal addresses travel in their 16-byte form under the IPv6 id). -/
def v2NetId : Fam → Nat
  | .ipv4 => 1
  | .ipv6 => 2
  | .onion => 3
  | .internal => 2

/-- Modelled from the spec: v2 address payload at the network's native
length: IPv4 as 4 bytes, IPv6 as 16, the overlay network at its native
shorter length, the internal network in its 16-byte hash form (spec.md 4.3). -/
def serV2AddrBytes (a : CNetAddr) : List Nat :=
  match famOf a with
  | .ipv4 => a.ip.drop 12
  | .onion => a.ip.drop 6
  | .ipv6 => a.ip
  | .internal => a.ip

/-- Self-describing v2 entry: 4-byte time, compact-size services, 1-byte
network id, compact-size address length, address bytes, 2-byte port. -/
def serV2Entry (x : CAddress) : List Nat :=
  leBytes 4 x.nTime ++ compactSize x.nServices ++
  [v2NetId (famOf x.addr)] ++ compactSize (serV2AddrBytes x.addr).length ++
  serV2AddrBytes x.addr ++ beBytes2 x.port

/-- Self-describing v2 serialization of a sequence. -/
def SerializeV2 (l : List CAddress) : List Nat :=
  compactSize l.length ++ (l.map serV2Entry).flatten

/-- Reconstruct the unified 16-byte representation from a network id and a
declared-length payload; declared lengths impossible for a known network id
are rejected. -/
def v2Recover (nid len : Nat) (ab : List Nat) : Option (List Nat) :=
  match nid, len with
  | 1, 4 => some (pchIPv4 ++ ab)
  | 2, 16 => some ab
  | 3, 10 => some (pchOnionCat ++ ab)
  | _, _ => none

def readV2Entry (s : List Nat) : Option (CAddress × List Nat) := do
  let (t, s1) ← readBytes 4 s
  let (sv, s2) ← readCompactSize false s1
  let (nid, s3) ← readBytes 1 s2
  let (len, s4) ← readCompactSize true s3
  let (ab, s5) ← readBytes len s4
  let (p, s6) ← readBytes 2 s5
  match v2Recover (nid.getD 0 0) len ab with
  | some ip => pure (⟨leVal t, sv, ⟨ip⟩, beVal2 p⟩, s6)
  | none => none

/-- Self-describing v2 deserialization of a full stream. -/
def UnserializeV2 (s : List Nat) : Option (List CAddress) := do
  let (n, s1) ← readCompactSize true s
  let (l, s2) ← readList readV2Entry n s1
  if s2 = [] then pure l else none

/-- Field bounds of a wire-representable timestamped address. -/
def wfCAddress (x : CAddress) : Prop :=
  wfAddr x.addr ∧ x.nTime < 2 ^ 32 ∧ x.nServices < 2 ^ 64 ∧ x.port < 2 ^ 16

instance (x : CAddress) : Decidable (wfCAddress x) := by
  unfold wfCAddress; infer_instance

/-! ## Serialization fixture (netbase_tests.cpp lines 396-492) -/

/-- The IPv6 loopback ::1 (`IN6ADDR_LOOPBACK_INIT`). -/
def in6addrLoopback : CNetAddr := ⟨List.replicate 15 0 ++ [1]⟩

/-- The three-entry fixture of netbase_tests.cpp: loopback at port 0 with no
services and a 2009 timestamp, loopback at port 0x00f1 with the network-node
flag and a 2039 timestamp, loopback at port 0xf1f2 with the bloom-filter
flag and a 2106 timestamp. -/
def fixtureAddresses : List CAddress :=
  [⟨0x4966bc61, 0, in6addrLoopback, 0⟩,
   ⟨0x83766279, 1, in6addrLoopback, 0x00f1⟩,
   ⟨0xffffffff, 4, in6addrLoopback, 0xf1f2⟩]

/-- The expected legacy-format stream of the fixture. -/
def streamAddrV1Hex : String :=
  "03" ++
  "61bc6649" ++ "0000000000000000" ++ "00000000000000000000000000000001" ++ "0000" ++
  "79627683" ++ "0100000000000000" ++ "00000000000000000000000000000001" ++ "00f1" ++
  "ffffffff" ++ "0400000000000000" ++ "00000000000000000000000000000001" ++ "f1f2"

/-- The expected self-describing-format stream of the fixture. -/
def streamAddrV2Hex : String :=
  "03" ++
  "61bc6649" ++ "00" ++ "02" ++ "10" ++ "00000000000000000000000000000001" ++ "0000" ++
  "79627683" ++ "01" ++ "02" ++ "10" ++ "00000000000000000000000000000001" ++ "00f1" ++
  "ffffffff" ++ "04" ++ "02" ++ "10" ++ "00000000000000000000000000000001" ++ "f1f2"

/-! ## Ban list (spec.md 4.4 and rpc/net.cpp `setban`) -/

inductive BanReason
  | manuallyAdded
  | nodeMisbehaving
deriving DecidableEq, Repr

/-- A ban record: creation time, expiry time, reason. -/
structure CBanEntry where
  nCreateTime : Nat
  nBanUntil : Nat
  banReason : BanReason
deriving DecidableEq, Repr

/-- The ban table: banned subnets with their entries. -/
abbrev BanMap := List (CSubNet × CBanEntry)

/-- Default ban duration (24 hours), used when the caller passes zero. -/
def nDefaultBanTime : Nat := 86400

/-- Modelled from the spec: the ban primitive (`CConnman::Ban`, absent from
the snapshot) inserts or replaces the entry of the target subnet; a zero
duration uses the default duration constant, and an absolute flag makes the
duration an absolute Unix timestamp (spec.md 4.4). -/
def Ban (m : BanMap) (sub : CSubNet) (reason : BanReason) (banTimeOffset : Nat)
    (sinceUnixEpoch : Bool) (now : Nat) : BanMap :=
  let nBanUntil := (if sinceUnixEpoch then 0 else now) +
    (if banTimeOffset ≠ 0 then banTimeOffset else nDefaultBanTime)
  m.filter (fun e => e.1 ≠ sub) ++ [(sub, ⟨now, nBanUntil, reason⟩)]

/-- Whether an address is covered by an unexpired ban entry. -/
def IsBannedAddr (m : BanMap) (a : CNetAddr) (now : Nat) : Bool :=
  m.any (fun e => e.1.Match a && now < e.2.nBanUntil)

/-- Whether a subnet has its own unexpired ban entry. -/
def IsBannedSub (m : BanMap) (sub : CSubNet) (now : Nat) : Bool :=
  m.any (fun e => e.1 = sub && now < e.2.nBanUntil)

/-- Outcome of the `setban ... add` RPC action. -/
inductive SetbanResult
  | ok (m : BanMap)
  | errInvalid
  | errAlreadyBanned
deriving DecidableEq, Repr

/-- The `setban "add"` action of rpc/net.cpp: targets with a slash are
treated as subnets, the target must be valid, an already-banned target is
rejected with an error, and otherwise the ban primitive is invoked (a bare
address is banned as its single-address subnet). -/
def setbanAdd (m : BanMap) (target : String) (banTime : Nat)
    (absolute : Bool) (now : Nat) : SetbanResult :=
  let isSubnet := (strBytes target).contains 47
  if isSubnet then
    let subNet := ResolveSubNet target
    if ¬ subNet.valid then .errInvalid
    else if IsBannedSub m subNet now then .errAlreadyBanned
    else .ok (Ban m subNet .manuallyAdded banTime absolute now)
  else
    let netAddr := ResolveIP target
    if ¬ IsValid netAddr then .errInvalid
    else if IsBannedAddr m netAddr now then .errAlreadyBanned
    else .ok (Ban m (CSubNet.single netAddr) .manuallyAdded banTime absolute now)

/-! ## Fixed-width blobs (uint256.h) -/

/-- The `base_blob<BITS>` template of uint256.h: a fixed-size opaque byte
blob of `BITS / 8` bytes. -/
structure base_blob (BITS : Nat) where
  m_data : List Nat
deriving DecidableEq, Repr

/-- Payload well-formedness: `BITS / 8` bytes, each below 256. -/
def wfBlob {BITS : Nat} (b : base_blob BITS) : Prop :=
  b.m_data.length = BITS / 8 ∧ ∀ x ∈ b.m_data, x < 256

instance {BITS : Nat} (b : base_blob BITS) : Decidable (wfBlob b) := by
  unfold wfBlob; infer_instance

/-- The default constructor: all-zero payload. -/
def base_blob.mkNull (BITS : Nat) : base_blob BITS := ⟨List.replicate (BITS / 8) 0⟩

/-- `IsNull`: scans the payload for a nonzero byte. -/
def base_blob.IsNull {BITS : Nat} (b : base_blob BITS) : Bool :=
  b.m_data.all (· = 0)

/-- Lexicographic byte comparison (`memcmp` over the payloads). -/
def memcmpBytes : List Nat → List Nat → Int
  | [], [] => 0
  | [], _ :: _ => -1
  | _ :: _, [] => 1
  | a :: as, b :: bs => if a < b then -1 else if b < a then 1 else memcmpBytes as bs

/-- `Compare`: `memcmp` of the two payloads. -/
def base_blob.Compare {BITS : Nat} (x y : base_blob BITS) : Int :=
  memcmpBytes x.m_data y.m_data

/-- `operator==`: `Compare` returns zero. -/
def base_blob.eqOp {BITS : Nat} (x y : base_blob BITS) : Bool :=
  x.Compare y = 0

/-! ## Helper lemmas -/

theorem beVal2_beBytes2 {p : Nat} (h : p < 2 ^ 16) : beVal2 (beBytes2 p) = p := by
  have h1 : p / 256 < 256 := by omega
  simp [beVal2, beBytes2, Nat.mod_eq_of_lt h1]
  omega

theorem beBytes2_length (p : Nat) : (beBytes2 p).length = 2 := rfl

/-- Compact-size decoding inverts the encoding, for canonical inputs. -/
theorem readCompactSize_append {n : Nat} (rc : Bool) (hn : n < 2 ^ 64)
    (hrc : rc = true → n ≤ MAX_SIZE) (rest : List Nat) :
    readCompactSize rc (compactSize n ++ rest) = some (n, rest) := by
  have hranged : ¬(rc = true ∧ MAX_SIZE < n) := by
    rintro ⟨ha, hb⟩
    have := hrc ha
    omega
  rcases Nat.lt_or_ge n 253 with h1 | h1
  · have hc : compactSize n ++ rest = n :: rest := by
      unfold compactSize; rw [if_pos h1]; rfl
    rw [hc]
    simp [readCompactSize, h1, hranged]
  rcases Nat.lt_or_ge 0xFFFF n with h2 | h2
  swap
  · have hc : compactSize n ++ rest = 253 :: (leBytes 2 n ++ rest) := by
      unfold compactSize
      rw [if_neg (by omega), if_pos (by omega)]
      rfl
    rw [hc]
    have hv : leVal (leBytes 2 n) = n := leVal_leBytes_of_lt (by norm_num; omega)
    simp [readCompactSize, readBytes_append rest (leBytes_length 2 n), hv, hranged, h1]
  rcases Nat.lt_or_ge 0xFFFFFFFF n with h3 | h3
  swap
  · have hc : compactSize n ++ rest = 254 :: (leBytes 4 n ++ rest) := by
      unfold compactSize
      rw [if_neg (by omega), if_neg (by omega), if_pos (by omega)]
      rfl
    rw [hc]
    have hv : leVal (leBytes 4 n) = n := leVal_leBytes_of_lt (by norm_num; omega)
    simp [readCompactSize, readBytes_append rest (leBytes_length 4 n), hv, hranged,
      (by omega : (0x10000 : Nat) <= n)]
  · have hc : compactSize n ++ rest = 255 :: (leBytes 8 n ++ rest) := by
      unfold compactSize
      rw [if_neg (by omega), if_neg (by omega), if_neg (by omega)]
      rfl
    rw [hc]
    have hv : leVal (leBytes 8 n) = n := leVal_leBytes_of_lt (by norm_num; omega)
    simp [readCompactSize, readBytes_append rest (leBytes_length 8 n), hv, hranged,
      (by omega : (0x100000000 : Nat) <= n)]

theorem getD_drop (l : List Nat) (n i : Nat) :
    (l.drop n).getD i 0 = l.getD (n + i) 0 := by
  simp [List.getD, List.getElem?_drop]

theorem eq_of_byteAt {l m : List Nat} (hl : l.length = 16) (hm : m.length = 16)
    (h : ∀ i, i < 16 → l.getD i 0 = m.getD i 0) : l = m := by
  apply List.ext_getElem (by omega)
  intro i h1 h2
  have h3 := h i (by omega)
  have h4 : l[i]? = some l[i] := List.getElem?_eq_getElem h1
  have h5 : m[i]? = some m[i] := List.getElem?_eq_getElem h2
  simp [List.getD, h4, h5] at h3
  exact h3

theorem famOf_ipv4_bytes {a : CNetAddr} (h : famOf a = .ipv4) :
    byteAt a 0 = 0 ∧ byteAt a 1 = 0 ∧ byteAt a 2 = 0 ∧ byteAt a 3 = 0 ∧
    byteAt a 4 = 0 ∧ byteAt a 5 = 0 ∧ byteAt a 6 = 0 ∧ byteAt a 7 = 0 ∧
    byteAt a 8 = 0 ∧ byteAt a 9 = 0 ∧ byteAt a 10 = 0xff ∧ byteAt a 11 = 0xff := by
  unfold famOf at h
  split_ifs at h
  simp_all

theorem famOf_onion_bytes {a : CNetAddr} (h : famOf a = .onion) :
    byteAt a 0 = 0xfd ∧ byteAt a 1 = 0x87 ∧ byteAt a 2 = 0xd8 ∧
    byteAt a 3 = 0x7e ∧ byteAt a 4 = 0xeb ∧ byteAt a 5 = 0x43 := by
  unfold famOf at h
  split_ifs at h
  simp_all

/-- An IPv4-classified 16-byte address is its mapped prefix plus its last
4 bytes. -/
theorem ipv4_recover {a : CNetAddr} (hlen : a.ip.length = 16)
    (hfam : famOf a = .ipv4) : pchIPv4 ++ a.ip.drop 12 = a.ip := by
  obtain ⟨h0, h1, h2, h3, h4, h5, h6, h7, h8, h9, h10, h11⟩ := famOf_ipv4_bytes hfam
  apply eq_of_byteAt (by simp [pchIPv4, hlen]) hlen
  intro i hi
  interval_cases i <;> simp_all [byteAt, pchIPv4, getD_drop]

/-- An overlay-classified 16-byte address is the OnionCat prefix plus its
last 10 bytes. -/
theorem onion_recover {a : CNetAddr} (hlen : a.ip.length = 16)
    (hfam : famOf a = .onion) : pchOnionCat ++ a.ip.drop 6 = a.ip := by
  obtain ⟨h0, h1, h2, h3, h4, h5⟩ := famOf_onion_bytes hfam
  apply eq_of_byteAt (by simp [pchOnionCat, hlen]) hlen
  intro i hi
  interval_cases i <;> simp_all [byteAt, pchOnionCat, getD_drop]

/-- Decoding a legacy entry from the front of a stream inverts the encoder. -/
theorem readV1Entry_append {x : CAddress} (hwf : wfCAddress x)
    (hfam : subnettable (famOf x.addr) = true) (rest : List Nat) :
    readV1Entry (serV1Entry x ++ rest) = some (x, rest) := by
  obtain ⟨⟨hlen, hbytes⟩, ht, hs, hp⟩ := hwf
  have haddr : serV1Addr x.addr = x.addr.ip := by
    unfold serV1Addr; rw [if_pos hfam]
  have ht4 : leVal (leBytes 4 x.nTime) = x.nTime :=
    leVal_leBytes_of_lt (show x.nTime < 2 ^ (8 * 4) by norm_num; omega)
  have hs8 : leVal (leBytes 8 x.nServices) = x.nServices :=
    leVal_leBytes_of_lt (show x.nServices < 2 ^ (8 * 8) by norm_num; omega)
  simp only [readV1Entry, serV1Entry, haddr, List.append_assoc]
  rw [readBytes_append _ (leBytes_length 4 x.nTime)]
  simp only [Option.bind_eq_bind, Option.some_bind]
  rw [readBytes_append _ (leBytes_length 8 x.nServices)]
  simp only [Option.some_bind]
  rw [readBytes_append _ hlen]
  simp only [Option.some_bind]
  rw [readBytes_append rest (beBytes2_length x.port)]
  simp only [Option.some_bind, ht4, hs8, beVal2_beBytes2 hp]
  rfl

/-- Decoding `k` encoded entries from the front of a stream inverts the
encoder, entry by entry. -/
theorem readList_append {readEntry : List Nat → Option (CAddress × List Nat)}
    {enc : CAddress → List Nat} {l : List CAddress}
    (h : ∀ x ∈ l, ∀ rest, readEntry (enc x ++ rest) = some (x, rest))
    (rest : List Nat) :
    readList readEntry l.length ((l.map enc).flatten ++ rest) = some (l, rest) := by
  induction l with
  | nil => simp [readList]
  | cons x xs ih =>
    simp only [List.map_cons, List.flatten_cons, List.length_cons, List.append_assoc]
    unfold readList
    rw [h x (List.mem_cons_self x xs) ((xs.map enc).flatten ++ rest)]
    simp only [Option.bind_eq_bind, Option.some_bind]
    rw [ih (fun y hy => h y (List.mem_cons_of_mem x hy))]
    rfl

/-- Legacy round trip (spec.md 4.3): decoding the encoding of a sequence of
representable addresses reproduces it exactly. -/
theorem UnserializeV1_SerializeV1 {l : List CAddress}
    (hwf : ∀ x ∈ l, wfCAddress x ∧ subnettable (famOf x.addr) = true)
    (hlen : l.length ≤ MAX_SIZE) :
    UnserializeV1 (SerializeV1 l) = some l := by
  have hcount : l.length < 2 ^ 64 := by
    have : MAX_SIZE < 2 ^ 64 := by norm_num [MAX_SIZE]
    omega
  unfold UnserializeV1 SerializeV1
  rw [readCompactSize_append true hcount (fun _ => hlen) ((l.map serV1Entry).flatten)]
  simp only [Option.bind_eq_bind, Option.some_bind]
  have hread : readList readV1Entry l.length ((l.map serV1Entry).flatten ++ []) =
      some (l, []) :=
    readList_append (fun x hx rest => readV1Entry_append (hwf x hx).1 (hwf x hx).2 rest) []
  rw [List.append_nil] at hread
  rw [hread]
  simp

/-- The v2 address payload together with its declared network id and length
recovers the unified 16-byte representation. -/
theorem v2Recover_serV2AddrBytes {a : CNetAddr} (hlen : a.ip.length = 16) :
    v2Recover (v2NetId (famOf a)) (serV2AddrBytes a).length (serV2AddrBytes a) =
      some a.ip := by
  rcases hfam : famOf a with _ | _ | _ | _
  · have h4 : (a.ip.drop 12).length = 4 := by simp [hlen]
    simp only [serV2AddrBytes, v2NetId, hfam, h4, v2Recover]
    exact congrArg some (ipv4_recover hlen hfam)
  · simp only [serV2AddrBytes, v2NetId, hfam, hlen, v2Recover]
  · have h10 : (a.ip.drop 6).length = 10 := by simp [hlen]
    simp only [serV2AddrBytes, v2NetId, hfam, h10, v2Recover]
    exact congrArg some (onion_recover hlen hfam)
  · simp only [serV2AddrBytes, v2NetId, hfam, hlen, v2Recover]

/-- Decoding a self-describing entry from the front of a stream inverts the
encoder. -/
theorem readV2Entry_append {x : CAddress} (hwf : wfCAddress x) (rest : List Nat) :
    readV2Entry (serV2Entry x ++ rest) = some (x, rest) := by
  obtain ⟨⟨hlen, hbytes⟩, ht, hs, hp⟩ := hwf
  have ht4 : leVal (leBytes 4 x.nTime) = x.nTime :=
    leVal_leBytes_of_lt (show x.nTime < 2 ^ (8 * 4) by norm_num; omega)
  have hablen : (serV2AddrBytes x.addr).length ≤ 16 := by
    rcases hfam : famOf x.addr <;> simp [serV2AddrBytes, hfam, hlen]
  simp only [readV2Entry, serV2Entry, List.append_assoc]
  rw [readBytes_append _ (leBytes_length 4 x.nTime)]
  simp only [Option.bind_eq_bind, Option.some_bind]
  rw [readCompactSize_append false hs (by simp)]
  simp only [Option.some_bind]
  simp only [List.singleton_append]
  rw [readBytes_one]
  simp only [Option.some_bind]
  rw [readCompactSize_append true
    (by omega : (serV2AddrBytes x.addr).length < 2 ^ 64)
    (fun _ => by unfold MAX_SIZE; omega)]
  simp only [Option.some_bind]
  rw [readBytes_append _ rfl]
  simp only [Option.some_bind]
  rw [readBytes_append rest (beBytes2_length x.port)]
  simp only [Option.some_bind]
  simp only [List.getD_cons_zero]
  rw [v2Recover_serV2AddrBytes hlen]
  simp only [ht4, beVal2_beBytes2 hp]
  rfl

/-- Self-describing round trip (spec.md 4.3): decoding the encoding of a
sequence reproduces it exactly, field for field. -/
theorem UnserializeV2_SerializeV2 {l : List CAddress}
    (hwf : ∀ x ∈ l, wfCAddress x) (hlen : l.length ≤ MAX_SIZE) :
    UnserializeV2 (SerializeV2 l) = some l := by
  have hcount : l.length < 2 ^ 64 := by
    have : MAX_SIZE < 2 ^ 64 := by norm_num [MAX_SIZE]
    omega
  unfold UnserializeV2 SerializeV2
  rw [readCompactSize_append true hcount (fun _ => hlen) ((l.map serV2Entry).flatten)]
  simp only [Option.bind_eq_bind, Option.some_bind]
  have hread : readList readV2Entry l.length ((l.map serV2Entry).flatten ++ []) =
      some (l, []) :=
    readList_append (fun x hx rest => readV2Entry_append (hwf x hx) rest) []
  rw [List.append_nil] at hread
  rw [hread]
  simp

theorem memcmpBytes_eq_zero {a b : List Nat} : memcmpBytes a b = 0 ↔ a = b := by
  induction a generalizing b with
  | nil => cases b <;> simp [memcmpBytes]
  | cons x xs ih =>
    cases b with
    | nil => simp [memcmpBytes]
    | cons y ys =>
      rcases Nat.lt_trichotomy x y with h1 | h1 | h1
      · have hne : x ≠ y := by omega
        simp [memcmpBytes, h1, hne]
      · subst h1
        simp [memcmpBytes, Nat.lt_irrefl, ih]
      · have hne : x ≠ y := by omega
        simp [memcmpBytes, h1, Nat.lt_asymm h1, hne]

/-! ## Claim theorems -/

/-- C1: serializing the three-entry fixture address list in the legacy v1
format produces exactly the recorded byte stream (little-endian time and
service flags, fixed 16-byte address, big-endian port, count prefix) and
deserializing that stream yields the same three entries; likewise the v2
serialization produces exactly the self-describing stream (4-byte time,
compact-size service flags, network id 0x02, compact-size length 0x10,
16 address bytes, 2-byte port) and deserializing it reproduces the fixture. -/
theorem caddress_fixture_streams :
    SerializeV1 fixtureAddresses = hexBytes streamAddrV1Hex ∧
    UnserializeV1 (hexBytes streamAddrV1Hex) = some fixtureAddresses ∧
    SerializeV2 fixtureAddresses = hexBytes streamAddrV2Hex ∧
    UnserializeV2 (hexBytes streamAddrV2Hex) = some fixtureAddresses := by
  refine ⟨?_, ?_, ?_, ?_⟩ <;> decide

/-- C2: for every sequence of timestamped addresses representable in a wire
format (legacy v1: IPv4/IPv6 only; self-describing v2: any network), decoding
the encoding in the same format reproduces the sequence exactly, field for
field — time, port, address bytes, network and the full service-flags value,
with service-flag bits outside the defined set preserved, not masked. -/
theorem wire_roundtrip_exact :
    (∀ l : List CAddress,
      (∀ x ∈ l, wfCAddress x ∧ subnettable (famOf x.addr) = true) →
      l.length ≤ MAX_SIZE → UnserializeV1 (SerializeV1 l) = some l) ∧
    (∀ l : List CAddress, (∀ x ∈ l, wfCAddress x) →
      l.length ≤ MAX_SIZE → UnserializeV2 (SerializeV2 l) = some l) :=
  ⟨fun _ h hl => UnserializeV1_SerializeV1 h hl,
   fun _ h hl => UnserializeV2_SerializeV2 h hl⟩

/-- A sample sequence carrying a service-flag bit outside the defined set
(bit 63) and every address family. -/
def roundtripSample : List CAddress :=
  [⟨5, 0x8000000000000001, ⟨pchIPv4 ++ [1, 2, 3, 4]⟩, 70⟩,
   ⟨0xffffffff, 0xffffffffffffffff, in6addrLoopback, 0xf1f2⟩]

theorem wire_roundtrip_exact_witness :
    (∀ x ∈ roundtripSample, wfCAddress x ∧ subnettable (famOf x.addr) = true) ∧
    roundtripSample.length ≤ MAX_SIZE ∧
    UnserializeV1 (SerializeV1 roundtripSample) = some roundtripSample ∧
    UnserializeV2 (SerializeV2 roundtripSample) = some roundtripSample :=
  ⟨by decide, by decide,
   wire_roundtrip_exact.1 roundtripSample (by decide) (by decide),
   wire_roundtrip_exact.2 roundtripSample (by decide) (by decide)⟩

/-- A ban table in which the single address 1.2.3.4 is banned until time
86400. -/
def bannedExample : BanMap :=
  Ban [] (CSubNet.single (ResolveIP ("1.2.3.4"))) .manuallyAdded 0 false 0

/-- C9 counterexample: 1.2.3.4 is a valid ban target that is already banned
in `bannedExample`, yet the `setban add` action does not replace the entry —
it fails with the already-banned error, contradicting the claim that banning
an already-banned target succeeds by replacing the entry. -/
theorem setban_already_banned_counterexample :
    IsValid (ResolveIP ("1.2.3.4")) = true ∧
    IsBannedAddr bannedExample (ResolveIP ("1.2.3.4")) 10 = true ∧
    setbanAdd bannedExample ("1.2.3.4") 0 false 10 = .errAlreadyBanned := by
  refine ⟨?_, ?_, ?_⟩ <;> decide

/-- C9 (amended): `setban add` inserts a new entry only for a valid target
that is not currently banned (via the ban primitive, which keeps exactly one
entry per subnet); a target that is already banned is rejected with an
error instead of being replaced; a zero duration uses the default ban
duration constant. -/
theorem setban_add_semantics :
    (∀ (m : BanMap) (target : String) (bt : Nat) (abs : Bool) (now : Nat),
      (strBytes target).contains 47 = false →
      IsValid (ResolveIP target) = true →
      IsBannedAddr m (ResolveIP target) now = false →
      setbanAdd m target bt abs now =
        .ok (Ban m (CSubNet.single (ResolveIP target)) .manuallyAdded bt abs now)) ∧
    (∀ (m : BanMap) (target : String) (bt : Nat) (abs : Bool) (now : Nat),
      (strBytes target).contains 47 = true →
      (ResolveSubNet target).valid = true →
      IsBannedSub m (ResolveSubNet target) now = false →
      setbanAdd m target bt abs now =
        .ok (Ban m (ResolveSubNet target) .manuallyAdded bt abs now)) ∧
    (∀ (m : BanMap) (target : String) (bt : Nat) (abs : Bool) (now : Nat),
      (strBytes target).contains 47 = false →
      IsValid (ResolveIP target) = true →
      IsBannedAddr m (ResolveIP target) now = true →
      setbanAdd m target bt abs now = .errAlreadyBanned) ∧
    (∀ (m : BanMap) (sub : CSubNet) (r : BanReason) (bt : Nat) (abs : Bool)
      (now : Nat),
      (Ban m sub r bt abs now).filter (fun e => e.1 = sub) =
        [(sub, ⟨now,
          (if abs then 0 else now) + (if bt ≠ 0 then bt else nDefaultBanTime),
          r⟩)]) ∧
    (∀ (m : BanMap) (sub : CSubNet) (r : BanReason) (now : Nat),
      (sub, ⟨now, now + nDefaultBanTime, r⟩) ∈ Ban m sub r 0 false now) := by
  refine ⟨?_, ?_, ?_, ?_, ?_⟩
  · intro m target bt abs now h1 h2 h3
    replace h1 : ¬ (47 ∈ strBytes target) := by simpa using h1
    simp [setbanAdd, h1, h2, h3]
  · intro m target bt abs now h1 h2 h3
    replace h1 : 47 ∈ strBytes target := by simpa using h1
    simp [setbanAdd, h1, h2, h3]
  · intro m target bt abs now h1 h2 h3
    replace h1 : ¬ (47 ∈ strBytes target) := by simpa using h1
    simp [setbanAdd, h1, h2, h3]
  · intro m sub r bt abs now
    unfold Ban
    rw [List.filter_append]
    have h1 : (m.filter (fun e => decide (e.1 ≠ sub))).filter
        (fun e => decide (e.1 = sub)) = [] := by
      apply List.filter_eq_nil_iff.mpr
      intro e he
      have h2 := (List.mem_filter.mp he).2
      simp at h2 ⊢
      exact h2
    rw [h1]
    simp
  · intro m sub r now
    unfold Ban
    simp

theorem setban_add_semantics_witness :
    (strBytes ("1.2.3.4")).contains 47 = false ∧
    IsValid (ResolveIP ("1.2.3.4")) = true ∧
    IsBannedAddr [] (ResolveIP ("1.2.3.4")) 10 = false ∧
    setbanAdd [] ("1.2.3.4") 0 false 10 =
      .ok (Ban [] (CSubNet.single (ResolveIP ("1.2.3.4"))) .manuallyAdded 0 false 10) :=
  ⟨by decide, by decide, by decide,
   setban_add_semantics.1 [] ("1.2.3.4") 0 false 10 (by decide) (by decide) (by decide)⟩

/-- C10: a fixed-width blob is null exactly when all of its `BITS / 8`
payload bytes are zero, the default-constructed blob is null, and
`operator==` holds exactly when the payloads agree byte for byte. -/
theorem base_blob_null_eq_spec :
    (∀ (BITS : Nat) (b : base_blob BITS), wfBlob b →
      (b.IsNull = true ↔ ∀ i, i < BITS / 8 → b.m_data.getD i 0 = 0)) ∧
    (∀ BITS : Nat, (base_blob.mkNull BITS).IsNull = true) ∧
    (∀ (BITS : Nat) (x y : base_blob BITS), x.eqOp y = true ↔ x.m_data = y.m_data) := by
  refine ⟨?_, ?_, ?_⟩
  · rintro BITS b ⟨hlen, _⟩
    simp only [base_blob.IsNull, List.all_eq_true, decide_eq_true_eq]
    constructor
    · intro h i hi
      have hi2 : i < b.m_data.length := by omega
      rw [List.getD_eq_getElem _ _ hi2]
      exact h _ (List.getElem_mem hi2)
    · intro h x hx
      obtain ⟨i, hi, rfl⟩ := List.mem_iff_getElem.mp hx
      have h2 := h i (by omega)
      rwa [List.getD_eq_getElem _ _ hi] at h2
  · intro BITS
    simp [base_blob.mkNull, base_blob.IsNull, List.all_eq_true]
  · intro BITS x y
    simp only [base_blob.eqOp, base_blob.Compare, decide_eq_true_eq]
    exact memcmpBytes_eq_zero

theorem base_blob_null_eq_spec_witness :
    wfBlob (base_blob.mkNull 256) ∧
    (base_blob.IsNull (base_blob.mkNull 256) = true ↔
      ∀ i, i < 256 / 8 → (base_blob.mkNull 256).m_data.getD i 0 = 0) :=
  ⟨by decide, base_blob_null_eq_spec.1 256 (base_blob.mkNull 256) (by decide)⟩

/-- C7: for every input string containing an embedded NUL terminator,
address parsing (`LookupHost`) and subnet parsing (`LookupSubNet`) fail, even
when the prefix before the terminator is by itself valid; parsing covers the
entire supplied string, never a truncated C-style view. -/
theorem embedded_nul_rejected :
    (∀ s : String, (strBytes s).contains 0 = true →
      LookupHost s = none ∧ LookupSubNet s = none) ∧
    LookupHost ("127.0.0.1") = some ⟨pchIPv4 ++ [127, 0, 0, 1]⟩ ∧
    LookupHost ("127.0.0.1\x00") = none ∧
    LookupHost ("127.0.0.1\x00example.com") = none ∧
    LookupHost ("127.0.0.1\x00example.com\x00") = none ∧
    LookupSubNetOK ("1.2.3.0/24") = true ∧
    LookupSubNet ("1.2.3.0/24\x00") = none ∧
    LookupSubNet ("1.2.3.0/24\x00example.com") = none ∧
    LookupSubNet ("1.2.3.0/24\x00example.com\x00") = none := by
  refine ⟨?_, ?_, ?_, ?_, ?_, ?_, ?_, ?_, ?_⟩
  · intro s h
    constructor
    · simp only [LookupHost]
      rw [if_pos h]
    · simp only [LookupSubNet]
      rw [if_pos h]
  all_goals decide

theorem embedded_nul_rejected_witness :
    (strBytes ("1.2.3.4\x00evil")).contains 0 = true ∧
    LookupHost ("1.2.3.4\x00evil") = none ∧
    LookupSubNet ("1.2.3.4\x00evil") = none :=
  ⟨by decide,
   (embedded_nul_rejected.1 ("1.2.3.4\x00evil") (by decide)).1,
   (embedded_nul_rejected.1 ("1.2.3.4\x00evil") (by decide)).2⟩

/-- The OnionCat representation of the service identifier
5wyqrzbvrdsumnok.onion. -/
def torFixtureAddr : CNetAddr :=
  ⟨[0xfd, 0x87, 0xd8, 0x7e, 0xeb, 0x43, 0xed, 0xb1,
    0x08, 0xe4, 0x35, 0x88, 0xe5, 0x46, 0x35, 0xca]⟩

/-- C8: the overlay service identifier 5wyqrzbvrdsumnok.onion and its
fixed-prefix IPv6 (OnionCat) encoding FD87:D87E:EB43:edb1:8e4:3588:e546:35ca
parse to equal address values; both are overlay-network (IsTor), routable
and not local; and rendering back to text produces the service-identifier
form, not raw hex. -/
theorem onioncat_equivalence :
    LookupHost ("5wyqrzbvrdsumnok.onion") = some torFixtureAddr ∧
    LookupHost ("FD87:D87E:EB43:edb1:8e4:3588:e546:35ca") = some torFixtureAddr ∧
    IsTor torFixtureAddr = true ∧
    IsRoutable torFixtureAddr = true ∧
    IsLocal torFixtureAddr = false ∧
    ToStringIP torFixtureAddr = "5wyqrzbvrdsumnok.onion" := by
  refine ⟨?_, ?_, ?_, ?_, ?_, ?_⟩ <;> decide

/-- The all-zero 16-byte payload. -/
def zeros16 : List Nat := [0, 0, 0, 0, 0, 0, 0, 0, 0, 0, 0, 0, 0, 0, 0, 0]

/-- The all-matching IPv6 subnet ::/0, as a concrete value. -/
theorem resolve_v6all : ResolveSubNet ("::/0") =
    ⟨⟨zeros16⟩, zeros16, true⟩ := by decide

/-- Under the all-zero netmask every byte comparison succeeds. -/
theorem all_zero_mask_cmp (a b : CNetAddr) :
    ((List.range 16).all fun i =>
      byteAt a i &&& zeros16.getD i 0 = byteAt b i &&& zeros16.getD i 0) = true := by
  rw [List.all_eq_true]
  intro i hi
  have h16 : i < 16 := List.mem_range.mp hi
  have hz : zeros16.getD i 0 = 0 := by
    interval_cases i <;> rfl
  rw [hz]
  simp

/-- C4: an invalid subnet matches no address (not even an invalid one); a
valid subnet matches only valid addresses of its own network family; the
all-matching IPv6 subnet ::/0 matches exactly the valid IPv6 addresses — so
it matches 1:2:3:4:5:6:7:1234 but not the all-zero :: or 0.0.0.0 (all-zero
addresses are invalid) and never any IPv4 address — and symmetrically the
all-matching IPv4 subnet 0.0.0.0/0 matches no IPv6 address. -/
theorem subnet_match_spec :
    (∀ (s : CSubNet) (a : CNetAddr), s.valid = false → s.Match a = false) ∧
    (∀ (s : CSubNet) (a : CNetAddr), s.Match a = true →
      IsValid a = true ∧ famOf a = famOf s.network) ∧
    (∀ a : CNetAddr, (ResolveSubNet ("::/0")).Match a =
      (IsValid a && famOf a = Fam.ipv6)) ∧
    (ResolveSubNet ("::/0")).Match (ResolveIP ("1:2:3:4:5:6:7:1234")) = true ∧
    (ResolveSubNet ("::/0")).Match (ResolveIP ("::")) = false ∧
    (ResolveSubNet ("::/0")).Match (ResolveIP ("0.0.0.0")) = false ∧
    (∀ a : CNetAddr, famOf a = .ipv4 →
      (ResolveSubNet ("::/0")).Match a = false) ∧
    (∀ a : CNetAddr, famOf a = .ipv6 →
      (ResolveSubNet ("0.0.0.0/0")).Match a = false) := by
  refine ⟨?_, ?_, ?_, by decide, by decide, by decide, ?_, ?_⟩
  · intro s a h
    simp [CSubNet.Match, h]
  · intro s a h
    simp only [CSubNet.Match, Bool.and_eq_true, decide_eq_true_eq] at h
    exact ⟨h.1.1.2, h.1.2⟩
  · intro a
    rw [resolve_v6all]
    simp only [CSubNet.Match]
    rw [all_zero_mask_cmp a ⟨zeros16⟩]
    have hfam : famOf ⟨zeros16⟩ = Fam.ipv6 := by decide
    simp [hfam]
  · intro a h
    rw [resolve_v6all]
    have hfam : famOf ⟨zeros16⟩ = Fam.ipv6 := by decide
    simp [CSubNet.Match, hfam, h]
  · intro a h
    have hv4 : ResolveSubNet ("0.0.0.0/0") =
        ⟨⟨pchIPv4 ++ [0, 0, 0, 0]⟩,
          List.replicate 12 255 ++ [0, 0, 0, 0], true⟩ := by decide
    rw [hv4]
    have hfam : famOf ⟨pchIPv4 ++ [0, 0, 0, 0]⟩ = Fam.ipv4 := by decide
    simp [CSubNet.Match, hfam, h]

theorem subnet_match_spec_witness :
    subnetNone.valid = false ∧
    subnetNone.Match (ResolveIP ("1.2.3.4")) = false :=
  ⟨by decide, subnet_match_spec.1 subnetNone (ResolveIP ("1.2.3.4")) (by decide)⟩

/-- C5: subnet parsing fails (the result is not valid) for every netmask
whose bit pattern is not contiguous ones followed by zeros (255.255.232.0
and 255.0.255.255 for any IPv4 base, the ff0f-style mask for any IPv6
base), for every prefix length exceeding the address width, for mismatched
address/netmask families, and for any base address on a non-subnettable
(overlay/internal) network. -/
theorem subnet_parse_failures :
    (∀ base : CNetAddr, famOf base = .ipv4 →
      (CSubNet.ofMask base (ResolveIP ("255.255.232.0"))).valid = false ∧
      (CSubNet.ofMask base (ResolveIP ("255.0.255.255"))).valid = false) ∧
    (∀ base : CNetAddr, famOf base = .ipv6 →
      (CSubNet.ofMask base
        (ResolveIP ("ffff:ffff:ffff:fffe:ffff:ffff:ffff:ff0f"))).valid = false) ∧
    (∀ (base : CNetAddr) (n : Nat), famOf base = .ipv4 → 32 < n →
      (CSubNet.ofPrefix base n).valid = false) ∧
    (∀ (base : CNetAddr) (n : Nat), famOf base = .ipv6 → 128 < n →
      (CSubNet.ofPrefix base n).valid = false) ∧
    (∀ base m : CNetAddr, famOf base = .ipv4 → famOf m = .ipv6 →
      (CSubNet.ofMask base m).valid = false) ∧
    (∀ base m : CNetAddr, famOf base = .ipv6 → famOf m = .ipv4 →
      (CSubNet.ofMask base m).valid = false) ∧
    (∀ base : CNetAddr, famOf base = .onion ∨ famOf base = .internal →
      (∀ n : Nat, (CSubNet.ofPrefix base n).valid = false) ∧
      (∀ m : CNetAddr, (CSubNet.ofMask base m).valid = false)) ∧
    (ResolveSubNet ("1.2.3.4/255.255.232.0")).valid = false ∧
    (ResolveSubNet ("1.2.3.4/255.0.255.255")).valid = false ∧
    (ResolveSubNet
      ("1:2:3:4:5:6:7:8/ffff:ffff:ffff:fffe:ffff:ffff:ffff:ff0f")).valid = false ∧
    (ResolveSubNet ("1.2.3.0/33")).valid = false ∧
    (ResolveSubNet ("1.2.3.0/300")).valid = false ∧
    (ResolveSubNet ("1:2:3:4:5:6:7:8/129")).valid = false ∧
    (ResolveSubNet ("5wyqrzbvrdsumnok.onion")).valid = false := by
  refine ⟨?_, ?_, ?_, ?_, ?_, ?_, ?_, by decide, by decide, by decide, by decide,
    by decide, by decide, by decide⟩
  · intro base h
    constructor
    · simp [CSubNet.ofMask, h,
        (by decide : famOf (ResolveIP ("255.255.232.0")) = Fam.ipv4),
        (by decide :
          contiguousBytes ((ResolveIP ("255.255.232.0")).ip.drop 12) = false)]
    · simp [CSubNet.ofMask, h,
        (by decide : famOf (ResolveIP ("255.0.255.255")) = Fam.ipv4),
        (by decide :
          contiguousBytes ((ResolveIP ("255.0.255.255")).ip.drop 12) = false)]
  · intro base h
    simp [CSubNet.ofMask, h,
      (by decide :
        famOf (ResolveIP ("ffff:ffff:ffff:fffe:ffff:ffff:ffff:ff0f")) = Fam.ipv6),
      (by decide : contiguousBytes
        (ResolveIP ("ffff:ffff:ffff:fffe:ffff:ffff:ffff:ff0f")).ip = false)]
  · intro base n h hn
    have h2 : ¬(n ≤ 32) := by omega
    simp [CSubNet.ofPrefix, h, subnetWidth, h2]
  · intro base n h hn
    have h2 : ¬(n ≤ 128) := by omega
    simp [CSubNet.ofPrefix, h, subnetWidth, h2]
  · intro base m h1 h2
    simp [CSubNet.ofMask, h1, h2]
  · intro base m h1 h2
    simp [CSubNet.ofMask, h1, h2]
  · intro base h
    rcases h with h | h
    · exact ⟨fun n => by simp [CSubNet.ofPrefix, h, subnettable],
        fun m => by simp [CSubNet.ofMask, h, subnettable]⟩
    · exact ⟨fun n => by simp [CSubNet.ofPrefix, h, subnettable],
        fun m => by simp [CSubNet.ofMask, h, subnettable]⟩

theorem subnet_parse_failures_witness :
    famOf (ResolveIP ("1.2.3.4")) = Fam.ipv4 ∧
    (CSubNet.ofMask (ResolveIP ("1.2.3.4"))
      (ResolveIP ("255.255.232.0"))).valid = false ∧
    (CSubNet.ofMask (ResolveIP ("1.2.3.4"))
      (ResolveIP ("255.0.255.255"))).valid = false :=
  ⟨by decide,
   (subnet_parse_failures.1 (ResolveIP ("1.2.3.4")) (by decide)).1,
   (subnet_parse_failures.1 (ResolveIP ("1.2.3.4")) (by decide)).2⟩

theorem getD_maskApply {ip mask : List Nat} {i : Nat} (h1 : i < ip.length)
    (h2 : i < mask.length) :
    (maskApply ip mask).getD i 0 = ip.getD i 0 &&& mask.getD i 0 := by
  unfold maskApply
  rw [List.getD_eq_getElem _ _ (by rw [List.length_zipWith]; omega),
    List.getElem_zipWith, List.getD_eq_getElem _ _ h1, List.getD_eq_getElem _ _ h2]

theorem maskBytes_length (k n : Nat) : (maskBytes k n).length = k := by
  simp [maskBytes]

theorem maskBytes_getD {k n i : Nat} (h : i < k) :
    (maskBytes k n).getD i 0 = maskByte (n - 8 * i) := by
  unfold maskBytes
  rw [List.getD_eq_getElem _ _ (by simpa using h)]
  simp

theorem makeMask_ipv4_length (n : Nat) : (makeMask .ipv4 n).length = 16 := by
  simp [makeMask, maskBytes]

theorem makeMask_ipv4_getD_lt {n i : Nat} (h : i < 12) :
    (makeMask .ipv4 n).getD i 0 = 255 := by
  unfold makeMask
  simp only [reduceIte]
  rw [List.getD_eq_getElem _ _ (by simp [maskBytes_length]; omega)]
  rw [List.getElem_append_left (by simpa using h)]
  interval_cases i <;> rfl

theorem maskByte_le (m : Nat) : maskByte m ≤ 255 := by
  unfold maskByte
  have h1 : 1 ≤ 2 ^ (8 - min m 8) := Nat.one_le_two_pow
  omega

theorem maskByte_eq_255 {m : Nat} (h : maskByte m = 255) : 8 ≤ m := by
  unfold maskByte at h
  rcases Nat.lt_or_ge m 8 with h2 | h2
  · exfalso
    have hmin : min m 8 = m := by omega
    rw [hmin] at h
    have hpow : 2 ≤ 2 ^ (8 - m) := by
      calc (2 : Nat) = 2 ^ 1 := rfl
      _ ≤ 2 ^ (8 - m) := Nat.pow_le_pow_right (by norm_num) (by omega)
    omega
  · exact h2

theorem maskByte_of_ge {m : Nat} (h : 8 ≤ m) : maskByte m = 255 := by
  unfold maskByte
  have hmin : min m 8 = 8 := by omega
  rw [hmin]
  norm_num

/-- A byte below 256 is unchanged by masking with 255. -/
theorem and_255_eq {x : Nat} (h : x < 256) : x &&& 255 = x := by
  have h255 := Nat.and_pow_two_sub_one_eq_mod x 8
  norm_num at h255
  rw [h255, Nat.mod_eq_of_lt h]

/-- Introduction form of the IPv4 classification. -/
theorem famOf_ipv4_intro {a : CNetAddr}
    (h : byteAt a 0 = 0 ∧ byteAt a 1 = 0 ∧ byteAt a 2 = 0 ∧ byteAt a 3 = 0 ∧
      byteAt a 4 = 0 ∧ byteAt a 5 = 0 ∧ byteAt a 6 = 0 ∧ byteAt a 7 = 0 ∧
      byteAt a 8 = 0 ∧ byteAt a 9 = 0 ∧ byteAt a 10 = 0xff ∧ byteAt a 11 = 0xff) :
    famOf a = .ipv4 := by
  unfold famOf
  rw [if_pos h]

/-- Bytes of a well-formed payload are below 256. -/
theorem wf_byte_lt {a : CNetAddr} (hwf : wfAddr a) {i : Nat} (h : i < 16) :
    a.ip.getD i 0 < 256 := by
  obtain ⟨hlen, hbytes⟩ := hwf
  have h2 : i < a.ip.length := by omega
  rw [List.getD_eq_getElem _ _ h2]
  exact hbytes _ (List.getElem_mem h2)

/-- Applying an IPv4 prefix mask preserves the IPv4 classification. -/
theorem famOf_maskApply_ipv4 {a : CNetAddr} (n : Nat) (hwf : wfAddr a)
    (hfam : famOf a = .ipv4) :
    famOf ⟨maskApply a.ip (makeMask .ipv4 n)⟩ = .ipv4 := by
  obtain ⟨h0, h1, h2, h3, h4, h5, h6, h7, h8, h9, h10, h11⟩ := famOf_ipv4_bytes hfam
  have hkey : ∀ i, i < 12 →
      byteAt ⟨maskApply a.ip (makeMask .ipv4 n)⟩ i = byteAt a i := by
    intro i hi
    unfold byteAt
    rw [getD_maskApply (by rw [hwf.1]; omega) (by rw [makeMask_ipv4_length]; omega),
      makeMask_ipv4_getD_lt hi, and_255_eq (wf_byte_lt hwf (by omega))]
  apply famOf_ipv4_intro
  refine ⟨?_, ?_, ?_, ?_, ?_, ?_, ?_, ?_, ?_, ?_, ?_, ?_⟩ <;>
    rw [hkey _ (by omega)] <;> assumption

/-- Applying an IPv6 prefix mask cannot create the IPv4-mapped pattern. -/
theorem famOf_maskApply_not_ipv4 {a : CNetAddr} (n : Nat) (hwf : wfAddr a)
    (hfam : famOf a ≠ .ipv4) :
    famOf ⟨maskApply a.ip (maskBytes 16 n)⟩ ≠ .ipv4 := by
  intro hbad
  obtain ⟨g0, g1, g2, g3, g4, g5, g6, g7, g8, g9, g10, g11⟩ := famOf_ipv4_bytes hbad
  have hg : ∀ i, i < 16 →
      byteAt ⟨maskApply a.ip (maskBytes 16 n)⟩ i =
        a.ip.getD i 0 &&& maskByte (n - 8 * i) := by
    intro i hi
    unfold byteAt
    rw [getD_maskApply (by rw [hwf.1]; omega) (by rw [maskBytes_length]; omega),
      maskBytes_getD hi]
  -- byte 11 of the masked address is 255, so the mask byte 11 is 255,
  -- hence n covers at least 96 bits and the mask is 255 on bytes 0..11.
  have hm11 : maskByte (n - 8 * 11) = 255 := by
    rw [hg 11 (by norm_num)] at g11
    have hle : a.ip.getD 11 0 &&& maskByte (n - 8 * 11) ≤ maskByte (n - 8 * 11) :=
      Nat.and_le_right
    have := maskByte_le (n - 8 * 11)
    omega
  have hn96 : 96 ≤ n := by
    have := maskByte_eq_255 hm11
    omega
  have hall : ∀ i, i < 12 → maskByte (n - 8 * i) = 255 := by
    intro i hi
    exact maskByte_of_ge (by omega)
  have hsame : ∀ i, i < 12 →
      byteAt ⟨maskApply a.ip (maskBytes 16 n)⟩ i = byteAt a i := by
    intro i hi
    rw [hg i (by omega), hall i hi]
    exact and_255_eq (wf_byte_lt hwf (by omega))
  apply hfam
  apply famOf_ipv4_intro
  refine ⟨?_, ?_, ?_, ?_, ?_, ?_, ?_, ?_, ?_, ?_, ?_, ?_⟩
  · rw [← hsame 0 (by norm_num)]; exact g0
  · rw [← hsame 1 (by norm_num)]; exact g1
  · rw [← hsame 2 (by norm_num)]; exact g2
  · rw [← hsame 3 (by norm_num)]; exact g3
  · rw [← hsame 4 (by norm_num)]; exact g4
  · rw [← hsame 5 (by norm_num)]; exact g5
  · rw [← hsame 6 (by norm_num)]; exact g6
  · rw [← hsame 7 (by norm_num)]; exact g7
  · rw [← hsame 8 (by norm_num)]; exact g8
  · rw [← hsame 9 (by norm_num)]; exact g9
  · rw [← hsame 10 (by norm_num)]; exact g10
  · rw [← hsame 11 (by norm_num)]; exact g11

set_option maxRecDepth 4000 in
/-- The bit count of an IPv4 prefix mask recovers the prefix length. -/
theorem popcount_maskBytes4 : ∀ n, n < 33 →
    ((maskBytes 4 n).map popcountByte).sum = n := by decide

set_option maxRecDepth 8000 in
/-- The bit count of an IPv6 prefix mask recovers the prefix length. -/
theorem popcount_maskBytes16 : ∀ n, n < 129 →
    ((maskBytes 16 n).map popcountByte).sum = n := by decide

/-- The rendered prefix length of an IPv4 prefix subnet is the prefix. -/
theorem prefixLen_ofPrefix_ipv4 {a : CNetAddr} {n : Nat} (hwf : wfAddr a)
    (hfam : famOf a = .ipv4) (hn : n ≤ 32) :
    (CSubNet.ofPrefix a n).prefixLen = n := by
  have hcond : subnettable (famOf a) = true ∧ n ≤ subnetWidth (famOf a) := by
    rw [hfam]
    exact ⟨by decide, by simpa [subnetWidth] using hn⟩
  unfold CSubNet.ofPrefix
  rw [if_pos hcond, hfam]
  unfold CSubNet.prefixLen
  rw [if_pos (famOf_maskApply_ipv4 n hwf hfam)]
  have hdrop : (makeMask .ipv4 n).drop 12 = maskBytes 4 n := by
    unfold makeMask
    simp only [reduceIte]
    rw [List.drop_left' (by simp)]
  rw [hdrop]
  exact popcount_maskBytes4 n (by omega)

/-- The rendered prefix length of an IPv6 prefix subnet is the prefix. -/
theorem prefixLen_ofPrefix_ipv6 {a : CNetAddr} {n : Nat} (hwf : wfAddr a)
    (hfam : famOf a = .ipv6) (hn : n ≤ 128) :
    (CSubNet.ofPrefix a n).prefixLen = n := by
  have hcond : subnettable (famOf a) = true ∧ n ≤ subnetWidth (famOf a) := by
    rw [hfam]
    exact ⟨by decide, by simpa [subnetWidth] using hn⟩
  have hmm : makeMask .ipv6 n = maskBytes 16 n := by simp [makeMask]
  unfold CSubNet.ofPrefix
  rw [if_pos hcond, hfam, hmm]
  unfold CSubNet.prefixLen
  rw [if_neg (famOf_maskApply_not_ipv4 n hwf (by rw [hfam]; simp))]
  exact popcount_maskBytes16 n (by omega)

/-- C6: parsing an address with an explicit contiguous netmask equals
parsing it with the equivalent prefix length (and differs for a different
base), and rendering always produces the canonical minimal-prefix
`address/prefixLength` form with the base masked to the prefix: the subnet
of a base plus a prefix stores the masked base, renders the masked base and
the exact prefix length, for both IPv4 and IPv6. -/
theorem subnet_canonical_form :
    (LookupSubNet ("1.2.3.0/24") = LookupSubNet ("1.2.3.0/255.255.255.0")) ∧
    (LookupSubNet ("1.2.3.0/24") ≠ LookupSubNet ("1.2.4.0/255.255.255.0")) ∧
    ((ResolveSubNet ("1.2.3.4/255.255.255.0")).render = "1.2.3.0/24") ∧
    ((ResolveSubNet ("1.2.3.4/255.128.0.0")).render = "1.0.0.0/9") ∧
    (∀ (a : CNetAddr) (n : Nat), wfAddr a → famOf a = .ipv4 → n ≤ 32 →
      (CSubNet.ofPrefix a n).network.ip = maskApply a.ip (makeMask .ipv4 n) ∧
      (CSubNet.ofPrefix a n).prefixLen = n ∧
      (CSubNet.ofPrefix a n).render =
        ToStringIP ⟨maskApply a.ip (makeMask .ipv4 n)⟩ ++ "/" ++
          natsToString (decChars n)) ∧
    (∀ (a : CNetAddr) (n : Nat), wfAddr a → famOf a = .ipv6 → n ≤ 128 →
      (CSubNet.ofPrefix a n).network.ip = maskApply a.ip (makeMask .ipv6 n) ∧
      (CSubNet.ofPrefix a n).prefixLen = n) := by
  refine ⟨by decide, by decide, by decide, by decide, ?_, ?_⟩
  · intro a n hwf hfam hn
    have hcond : subnettable (famOf a) = true ∧ n ≤ subnetWidth (famOf a) := by
      rw [hfam]
      exact ⟨by decide, by simpa [subnetWidth] using hn⟩
    have hnet : (CSubNet.ofPrefix a n).network = ⟨maskApply a.ip (makeMask .ipv4 n)⟩ := by
      unfold CSubNet.ofPrefix
      rw [if_pos hcond, hfam]
    refine ⟨by rw [hnet], prefixLen_ofPrefix_ipv4 hwf hfam hn, ?_⟩
    unfold CSubNet.render
    rw [prefixLen_ofPrefix_ipv4 hwf hfam hn, hnet]
  · intro a n hwf hfam hn
    have hcond : subnettable (famOf a) = true ∧ n ≤ subnetWidth (famOf a) := by
      rw [hfam]
      exact ⟨by decide, by simpa [subnetWidth] using hn⟩
    have hnet : (CSubNet.ofPrefix a n).network = ⟨maskApply a.ip (makeMask .ipv6 n)⟩ := by
      unfold CSubNet.ofPrefix
      rw [if_pos hcond, hfam]
    exact ⟨by rw [hnet], prefixLen_ofPrefix_ipv6 hwf hfam hn⟩

theorem subnet_canonical_form_witness :
    wfAddr (ResolveIP ("1.2.3.4")) ∧
    famOf (ResolveIP ("1.2.3.4")) = Fam.ipv4 ∧ (9 : Nat) ≤ 32 ∧
    (CSubNet.ofPrefix (ResolveIP ("1.2.3.4")) 9).prefixLen = 9 :=
  ⟨by decide, by decide, by decide,
   (subnet_canonical_form.2.2.2.2.1 (ResolveIP ("1.2.3.4")) 9
     (by decide) (by decide) (by decide)).2.1⟩

/-- A plain or IPv4-mapped address embedding the IPv4 bytes a.b.c.d. -/
def ipv4Embed (a b c d : Nat) : CNetAddr := ⟨pchIPv4 ++ [a, b, c, d]⟩

/-- A NAT64 (RFC6052) address embedding a.b.c.d. -/
def rfc6052Embed (a b c d : Nat) : CNetAddr :=
  ⟨[0, 0x64, 0xff, 0x9b, 0, 0, 0, 0, 0, 0, 0, 0, a, b, c, d]⟩

/-- An RFC6145-translated address embedding a.b.c.d. -/
def rfc6145Embed (a b c d : Nat) : CNetAddr :=
  ⟨[0, 0, 0, 0, 0, 0, 0, 0, 0xff, 0xff, 0, 0, a, b, c, d]⟩

/-- A 6-to-4 (RFC3964) address embedding a.b.c.d, with arbitrary trailing
bytes. -/
def rfc3964Embed (a b c d : Nat) (r : List Nat) : CNetAddr :=
  ⟨[0x20, 0x02, a, b, c, d] ++ r⟩

/-- A Teredo (RFC4380) address embedding a.b.c.d (the client IPv4 is stored
inverted in the last 4 bytes), with arbitrary server/flags/port bytes. -/
def rfc4380Embed (r4 r5 r6 r7 r8 r9 r10 r11 a b c d : Nat) : CNetAddr :=
  ⟨[0x20, 0x01, 0, 0, r4, r5, r6, r7, r8, r9, r10, r11,
    a ^^^ 0xFF, b ^^^ 0xFF, c ^^^ 0xFF, d ^^^ 0xFF]⟩

/-- An overlay (Tor) address with the given 10 payload bytes. -/
def onionEmbed (t0 t1 t2 t3 t4 t5 t6 t7 t8 t9 : Nat) : CNetAddr :=
  ⟨pchOnionCat ++ [t0, t1, t2, t3, t4, t5, t6, t7, t8, t9]⟩

set_option maxRecDepth 40000 in
/-- C3: with no AS-map, `GetGroup` buckets every non-routable or invalid
non-internal address to the single constant key {0}; every routable plain or
mapped IPv4 address and every NAT64, RFC6145, 6-to-4 or Teredo address
embedding an IPv4 address to {IPv4-tag, first octet, second octet} of the
embedded IPv4 (so 1.2.3.4 and all its embedded forms yield {IPv4-tag,1,2});
every overlay address to the overlay tag plus a fixed small prefix of the
address bytes; and every internal pseudo-address to the internal tag plus
the first 10 bytes of the label's SHA-256 hash payload. -/
theorem netgroup_spec :
    (∀ x : CNetAddr, IsInternal x = false → IsRoutable x = false →
      GetGroup x = [0]) ∧
    (∀ a b c d : Nat, IsRoutable (ipv4Embed a b c d) = true →
      GetGroup (ipv4Embed a b c d) = [Network.ipv4.toByte, a, b]) ∧
    (∀ a b c d : Nat, GetGroup (rfc6052Embed a b c d) = [Network.ipv4.toByte, a, b]) ∧
    (∀ a b c d : Nat, GetGroup (rfc6145Embed a b c d) = [Network.ipv4.toByte, a, b]) ∧
    (∀ (a b c d : Nat) (r : List Nat),
      GetGroup (rfc3964Embed a b c d r) = [Network.ipv4.toByte, a, b]) ∧
    (∀ r4 r5 r6 r7 r8 r9 r10 r11 a b c d : Nat,
      GetGroup (rfc4380Embed r4 r5 r6 r7 r8 r9 r10 r11 a b c d) =
        [Network.ipv4.toByte, a, b]) ∧
    (∀ t0 t1 t2 t3 t4 t5 t6 t7 t8 t9 : Nat,
      GetGroup (onionEmbed t0 t1 t2 t3 t4 t5 t6 t7 t8 t9) =
        [Network.onion.toByte, t0 ||| 0x0F]) ∧
    (∀ name : String, GetGroup (SetInternal name) =
      Network.internal.toByte :: (sha256 (strBytes name)).take 10) ∧
    GetGroup (ResolveIP ("127.0.0.1")) = [0] ∧
    GetGroup (ResolveIP ("257.0.0.1")) = [0] ∧
    GetGroup (ResolveIP ("10.0.0.1")) = [0] ∧
    GetGroup (ResolveIP ("169.254.1.1")) = [0] ∧
    GetGroup (ResolveIP ("1.2.3.4")) = [Network.ipv4.toByte, 1, 2] ∧
    GetGroup (ResolveIP ("::FFFF:0102:0304")) = [Network.ipv4.toByte, 1, 2] ∧
    GetGroup (ResolveIP ("::FFFF:0:102:304")) = [Network.ipv4.toByte, 1, 2] ∧
    GetGroup (ResolveIP ("64:FF9B::102:304")) = [Network.ipv4.toByte, 1, 2] ∧
    GetGroup (ResolveIP ("2002:102:304:9999:9999:9999:9999:9999")) =
      [Network.ipv4.toByte, 1, 2] ∧
    GetGroup (ResolveIP ("2001:0:9999:9999:9999:9999:FEFD:FCFB")) =
      [Network.ipv4.toByte, 1, 2] ∧
    GetGroup (ResolveIP ("FD87:D87E:EB43:edb1:8e4:3588:e546:35ca")) =
      [Network.onion.toByte, 239] ∧
    GetGroup (SetInternal ("baz.net")) =
      [Network.internal.toByte, 0x12, 0x92, 0x94, 0x00, 0xeb, 0x46, 0x07,
        0xc4, 0xac, 0x07] := by
  refine ⟨?_, ?_, ?_, ?_, ?_, ?_, ?_, ?_, by decide, by decide, by decide,
    by decide, by decide, by decide, by decide, by decide, by decide, by decide,
    by decide, by decide⟩
  · intro x h1 h2
    simp [GetGroup, h1, h2]
  · intro a b c d h
    have hfam : famOf (ipv4Embed a b c d) = .ipv4 := by
      simp [famOf, ipv4Embed, byteAt, pchIPv4]
    have hint : IsInternal (ipv4Embed a b c d) = false := by
      simp [IsInternal, hfam]
    have hb12 : byteAt (ipv4Embed a b c d) 12 = a := by
      simp [byteAt, ipv4Embed, pchIPv4]
    have hb13 : byteAt (ipv4Embed a b c d) 13 = b := by
      simp [byteAt, ipv4Embed, pchIPv4]
    unfold GetGroup
    simp only [hint, h, IsIPv4, hfam, hb12, hb13]
    simp
  · intro a b c d
    simp [GetGroup, IsInternal, IsRoutable, IsValid, IsIPv4, IsTor, IsRFC1918,
      IsRFC2544, IsRFC3927, IsRFC4862, IsRFC6598, IsRFC5737, IsRFC4193,
      IsRFC4843, IsRFC7343, IsRFC3849, IsRFC3964, IsRFC6052, IsRFC4380,
      IsRFC6145, IsHeNet, IsLocal, famOf, byteAt, rfc6052Embed]
  · intro a b c d
    simp [GetGroup, IsInternal, IsRoutable, IsValid, IsIPv4, IsTor, IsRFC1918,
      IsRFC2544, IsRFC3927, IsRFC4862, IsRFC6598, IsRFC5737, IsRFC4193,
      IsRFC4843, IsRFC7343, IsRFC3849, IsRFC3964, IsRFC6052, IsRFC4380,
      IsRFC6145, IsHeNet, IsLocal, famOf, byteAt, rfc6145Embed]
  · intro a b c d r
    simp [GetGroup, IsInternal, IsRoutable, IsValid, IsIPv4, IsTor, IsRFC1918,
      IsRFC2544, IsRFC3927, IsRFC4862, IsRFC6598, IsRFC5737, IsRFC4193,
      IsRFC4843, IsRFC7343, IsRFC3849, IsRFC3964, IsRFC6052, IsRFC4380,
      IsRFC6145, IsHeNet, IsLocal, famOf, byteAt, rfc3964Embed]
    decide
  · intro r4 r5 r6 r7 r8 r9 r10 r11 a b c d
    have hxor : ∀ x : Nat, (x ^^^ 0xFF) ^^^ 0xFF = x := by
      intro x
      rw [Nat.xor_assoc, Nat.xor_self, Nat.xor_zero]
    simp [GetGroup, IsInternal, IsRoutable, IsValid, IsIPv4, IsTor, IsRFC1918,
      IsRFC2544, IsRFC3927, IsRFC4862, IsRFC6598, IsRFC5737, IsRFC4193,
      IsRFC4843, IsRFC7343, IsRFC3849, IsRFC3964, IsRFC6052, IsRFC4380,
      IsRFC6145, IsHeNet, IsLocal, famOf, byteAt, rfc4380Embed, hxor]
    decide
  · intro t0 t1 t2 t3 t4 t5 t6 t7 t8 t9
    simp [GetGroup, IsInternal, IsRoutable, IsValid, IsIPv4, IsTor, IsRFC1918,
      IsRFC2544, IsRFC3927, IsRFC4862, IsRFC6598, IsRFC5737, IsRFC4193,
      IsRFC4843, IsRFC7343, IsRFC3849, IsRFC3964, IsRFC6052, IsRFC4380,
      IsRFC6145, IsHeNet, IsLocal, famOf, byteAt, onionEmbed, pchOnionCat]
  · intro name
    have hfam : famOf (SetInternal name) = .internal := by
      simp [famOf, SetInternal, byteAt, pchInternal]
    have hint : IsInternal (SetInternal name) = true := by
      simp [IsInternal, hfam]
    have hdrop : (SetInternal name).ip.drop 6 =
        (sha256 (strBytes name)).take 10 := by
      simp [SetInternal, pchInternal]
    unfold GetGroup
    simp only [hint, hdrop]
    simp

theorem netgroup_spec_witness :
    IsRoutable (ipv4Embed 1 2 3 4) = true ∧
    GetGroup (ipv4Embed 1 2 3 4) = [Network.ipv4.toByte, 1, 2] :=
  ⟨by decide, netgroup_spec.2.1 1 2 3 4 (by decide)⟩

end MariaNet

